import Mathlib

/-!
# spotify-mini: credential lifecycle and status line

A shallow embedding of `internal/api/auth.go`, of `GetCurrentPlaying` from
`internal/api/api.go` and of the status functions of `cmd/main.go`.

Conventions of the embedding:

* Go strings are Lean `String`s (sequences of Unicode scalar values); text that is
  scanned character by character is handled as `List Char`.
* Go `int` and `time.Duration` are `Int` with explicit wrap-around at 64 bits.
* `time.Time` is the absolute instant, in nanoseconds since the Unix epoch, read in UTC.
* Everything outside the process (file system, clock, token endpoint, browser callback,
  player endpoint) lives in an explicit `World` that the operations read and update.
* `encoding/json` and the RFC 3339 codec of `time` are embedded at the level of the
  text they read and write.
-/

namespace SpotifyMini

set_option maxRecDepth 100000

/-! ## Machine integers and time -/

/-- Two's-complement wrap of an integer to 64 bits (Go `int`, `int64`, `time.Duration`). -/
def wrap64 (x : Int) : Int := (x + 2 ^ 63) % 2 ^ 64 - 2 ^ 63

/-- Membership in the range of a 64-bit signed integer. -/
def isInt64 (x : Int) : Prop := -(2 ^ 63) ≤ x ∧ x < 2 ^ 63

instance (x : Int) : Decidable (isInt64 x) := by unfold isInt64; infer_instance

/-- The instant of a `time.Time`: nanoseconds since 1970-01-01T00:00:00Z. The range of
`time.Time` (64-bit seconds) is far wider than any clock reading offset by a `Duration`,
so instants are not bounded here; the monotonic reading and the location are left out. -/
abbrev Time := Int

/-- The value of `time.Duration`: a 64-bit count of nanoseconds. -/
abbrev Duration := Int

/-- The constant `time.Second`. -/
def Second : Duration := 1000000000

/-- The zero `time.Time`, 0001-01-01T00:00:00Z. -/
def zeroTime : Time := -62135596800000000000

/-- `t.After(u)`: strictly later. -/
def Time.After (t u : Time) : Bool := decide (u < t)

/-- `t.Add(d)`. -/
def Time.Add (t : Time) (d : Duration) : Time := t + d

/-! ## The credential record -/

/-- The `Token` struct of `auth.go`. -/
structure Token where
  AccessToken : String
  TokenType : String
  RefreshToken : String
  ExpiresIn : Int
  Expiry : Time
deriving DecidableEq, Repr

/-- The value of `&Token{}`: every field at its zero value. -/
def Token.zero : Token :=
  { AccessToken := "", TokenType := "", RefreshToken := "", ExpiresIn := 0, Expiry := zeroTime }

/-! ## encoding/json: the scanner

The scanner follows `encoding/json/scanner.go`: one step function per state and a stack
of parse states. While it runs it records what the decoder needs from a document
whose target is a flat struct: the kind of the top-level value and, for an object,
its members in document order. -/

/-- The entries of the scanner's parse-state stack. -/
inductive ParseState
  | objectKey
  | objectValue
  | arrayValue
deriving DecidableEq, Repr

/-- The scanner's current step function. -/
inductive Step
  | beginValueOrEmpty
  | beginValue
  | beginStringOrEmpty
  | beginString
  | endValue
  | endTop
  | inString
  | inStringEsc
  | inStringEscU (seen : Nat)
  | neg
  | zero
  | one
  | dot
  | dot0
  | e
  | eSign
  | e0
  | lit (rest : List Char)
  | error
deriving DecidableEq, Repr

/-- A scanned value: a string or number literal with its text, one of the three
keywords, or a nested object or array (of which only the syntax is checked). -/
inductive JValue
  | str (raw : List Char)
  | num (text : List Char)
  | true
  | false
  | null
  | object
  | array
deriving DecidableEq, Repr

/-- The scanner state. -/
structure Scanner where
  step : Step
  parseState : List ParseState
  cur : List Char
  curLit : JValue
  key : List Char
  members : List (List Char × JValue)
  top : Option JValue
  junk : Bool
deriving DecidableEq, Repr

/-- The scanner before the first character. -/
def Scanner.init : Scanner :=
  { step := .beginValue, parseState := [], cur := [], curLit := .null, key := [],
    members := [], top := none, junk := false }

/-- The function `isSpace` of the scanner. -/
def isSpace (c : Char) : Bool := c = ' ' || c = '\t' || c = '\r' || c = '\n'

/-- An ASCII decimal digit. -/
def isDigit (c : Char) : Bool := decide ('0' ≤ c) && decide (c ≤ '9')

/-- An ASCII hexadecimal digit. -/
def isHex (c : Char) : Bool :=
  isDigit c || (decide ('a' ≤ c) && decide (c ≤ 'f')) || (decide ('A' ≤ c) && decide (c ≤ 'F'))

/-- The scanner's error state. -/
def Scanner.fail (s : Scanner) : Scanner := { s with step := .error }

/-- A value has just been completed: record it where it belongs and expect what may
follow a value (`stateEndValue`, or `stateEndTop` at the top level). -/
def Scanner.finish (s : Scanner) (v : JValue) : Scanner :=
  match s.parseState with
  | [] => { s with step := .endTop, top := some v, cur := [] }
  | [.objectKey] =>
    { s with step := .endValue, cur := [],
             key := match v with
                    | .str raw => raw
                    | _ => [] }
  | [.objectValue] => { s with step := .endValue, cur := [], members := s.members ++ [(s.key, v)] }
  | _ => { s with step := .endValue, cur := [] }

/-- The steps `stateEndValue` and `stateEndTop`: a character after a complete value. -/
def Scanner.endChar (s : Scanner) (c : Char) : Scanner :=
  match s.parseState with
  | [] => if isSpace c then s else { s with junk := true }
  | .objectKey :: rest =>
    if isSpace c then s
    else if c = ':' then { s with parseState := .objectValue :: rest, step := .beginValue }
    else s.fail
  | .objectValue :: rest =>
    if isSpace c then s
    else if c = ',' then { s with parseState := .objectKey :: rest, step := .beginString }
    else if c = '}' then Scanner.finish { s with parseState := rest } .object
    else s.fail
  | .arrayValue :: rest =>
    if isSpace c then s
    else if c = ',' then { s with step := .beginValue }
    else if c = ']' then Scanner.finish { s with parseState := rest } .array
    else s.fail

/-- The step `stateBeginValue`. -/
def Scanner.beginValueChar (s : Scanner) (c : Char) : Scanner :=
  if isSpace c then s
  else if c = '{' then
    { s with parseState := .objectKey :: s.parseState, step := .beginStringOrEmpty }
  else if c = '[' then
    { s with parseState := .arrayValue :: s.parseState, step := .beginValueOrEmpty }
  else if c = '"' then { s with step := .inString, cur := [] }
  else if c = '-' then { s with step := .neg, cur := [c] }
  else if c = '0' then { s with step := .zero, cur := [c] }
  else if c = 't' then { s with step := .lit ['r', 'u', 'e'], curLit := .true }
  else if c = 'f' then { s with step := .lit ['a', 'l', 's', 'e'], curLit := .false }
  else if c = 'n' then { s with step := .lit ['u', 'l', 'l'], curLit := .null }
  else if isDigit c then { s with step := .one, cur := [c] }
  else s.fail

/-- The step `stateBeginString`. -/
def Scanner.beginStringChar (s : Scanner) (c : Char) : Scanner :=
  if isSpace c then s
  else if c = '"' then { s with step := .inString, cur := [] }
  else s.fail

/-- One character through the scanner. -/
def Scanner.stepChar (s : Scanner) (c : Char) : Scanner :=
  match s.step with
  | .error => s
  | .endTop => s.endChar c
  | .endValue => s.endChar c
  | .beginValue => s.beginValueChar c
  | .beginValueOrEmpty =>
    if isSpace c then s
    else if c = ']' then Scanner.finish { s with parseState := s.parseState.tail } .array
    else s.beginValueChar c
  | .beginStringOrEmpty =>
    if isSpace c then s
    else if c = '}' then Scanner.finish { s with parseState := s.parseState.tail } .object
    else s.beginStringChar c
  | .beginString => s.beginStringChar c
  | .inString =>
    if c = '"' then s.finish (.str s.cur)
    else if c = '\\' then { s with step := .inStringEsc, cur := s.cur ++ [c] }
    else if c.toNat < 32 then s.fail
    else { s with cur := s.cur ++ [c] }
  | .inStringEsc =>
    if c = 'b' || c = 'f' || c = 'n' || c = 'r' || c = 't' || c = '\\' || c = '/' || c = '"' then
      { s with step := .inString, cur := s.cur ++ [c] }
    else if c = 'u' then { s with step := .inStringEscU 0, cur := s.cur ++ [c] }
    else s.fail
  | .inStringEscU seen =>
    if isHex c then
      { s with step := if seen < 3 then .inStringEscU (seen + 1) else .inString,
               cur := s.cur ++ [c] }
    else s.fail
  | .neg =>
    if c = '0' then { s with step := .zero, cur := s.cur ++ [c] }
    else if isDigit c then { s with step := .one, cur := s.cur ++ [c] }
    else s.fail
  | .one =>
    if isDigit c then { s with cur := s.cur ++ [c] }
    else if c = '.' then { s with step := .dot, cur := s.cur ++ [c] }
    else if c = 'e' || c = 'E' then { s with step := .e, cur := s.cur ++ [c] }
    else (s.finish (.num s.cur)).endChar c
  | .zero =>
    if c = '.' then { s with step := .dot, cur := s.cur ++ [c] }
    else if c = 'e' || c = 'E' then { s with step := .e, cur := s.cur ++ [c] }
    else (s.finish (.num s.cur)).endChar c
  | .dot =>
    if isDigit c then { s with step := .dot0, cur := s.cur ++ [c] } else s.fail
  | .dot0 =>
    if isDigit c then { s with cur := s.cur ++ [c] }
    else if c = 'e' || c = 'E' then { s with step := .e, cur := s.cur ++ [c] }
    else (s.finish (.num s.cur)).endChar c
  | .e =>
    if c = '+' || c = '-' then { s with step := .eSign, cur := s.cur ++ [c] }
    else if isDigit c then { s with step := .e0, cur := s.cur ++ [c] }
    else s.fail
  | .eSign =>
    if isDigit c then { s with step := .e0, cur := s.cur ++ [c] } else s.fail
  | .e0 =>
    if isDigit c then { s with cur := s.cur ++ [c] }
    else (s.finish (.num s.cur)).endChar c
  | .lit rest =>
    match rest with
    | [] => s.fail
    | [x] => if c = x then s.finish s.curLit else s.fail
    | x :: more => if c = x then { s with step := .lit more } else s.fail

/-- The scanner run over a text. -/
def Scanner.run (s : Scanner) (text : List Char) : Scanner := text.foldl Scanner.stepChar s

/-- What `Decoder.Decode` reads from a stream: the first JSON value of the text. At the
end of the input the decoder feeds the scanner one space, which completes a number. -/
inductive Scanned
  | value (v : JValue) (members : List (List Char × JValue))
  | syntaxError
  | eof
  | unexpectedEOF
deriving DecidableEq, Repr

/-- Read the first JSON value of a text, as `Decoder.readValue` does. -/
def readValue (text : List Char) : Scanned :=
  let s := (Scanner.init.run text).stepChar ' '
  match s.top with
  | some v => .value v s.members
  | none =>
    if s.step = .error then .syntaxError
    else if text.all isSpace then .eof
    else .unexpectedEOF

/-- A text is one well-formed JSON document (`json.Valid`): a single value, with only
white space around it. -/
def validJSON (text : List Char) : Bool :=
  let s := (Scanner.init.run text).stepChar ' '
  s.top.isSome && !s.junk

/-! ## encoding/json: string and number literals -/

/-- The numeric value of a hexadecimal digit. -/
def hexVal (c : Char) : Option Nat :=
  if isDigit c then some (c.toNat - 48)
  else if 'a' ≤ c ∧ c ≤ 'f' then some (c.toNat - 87)
  else if 'A' ≤ c ∧ c ≤ 'F' then some (c.toNat - 55)
  else none

/-- The function `getu4`: the value of the four hexadecimal digits of a `\u` escape. -/
def hex4 (a b c d : Char) : Option Nat :=
  match hexVal a, hexVal b, hexVal c, hexVal d with
  | some x, some y, some z, some w => some (((x * 16 + y) * 16 + z) * 16 + w)
  | _, _, _, _ => none

/-- The Unicode replacement character, U+FFFD. -/
def replacementChar : Char := Char.ofNat 0xFFFD

/-- The character named by a one-letter escape. -/
def unescape1 (c : Char) : Option Char :=
  if c = '"' || c = '\\' || c = '/' || c = '\'' then some c
  else if c = 'b' then some (Char.ofNat 8)
  else if c = 'f' then some (Char.ofNat 12)
  else if c = 'n' then some '\n'
  else if c = 'r' then some '\r'
  else if c = 't' then some '\t'
  else none

/-- Where `unquoteBytes` stands in a string literal: in plain text, after a backslash,
inside the four hexadecimal digits of a `\u` escape, or failed. -/
inductive UnquoteMode
  | plain
  | esc
  | hex (seen : Nat) (acc : Nat)
  | bad
deriving DecidableEq, Repr

/-- The state of `unquoteBytes`: the mode, a surrogate read from a `\u` escape that still
waits for its partner, and the characters produced so far. -/
structure Unquoter where
  mode : UnquoteMode
  pending : Option Nat
  out : List Char
deriving DecidableEq, Repr

/-- The output with a waiting surrogate resolved to U+FFFD. -/
def Unquoter.flush (u : Unquoter) : List Char :=
  match u.pending with
  | some _ => u.out ++ [replacementChar]
  | none => u.out

/-- Produce one character. -/
def Unquoter.emit (u : Unquoter) (c : Char) : Unquoter :=
  { mode := .plain, pending := none, out := u.flush ++ [c] }

/-- A `\u` escape with value `r` has been read: a low surrogate completes a waiting high
surrogate, a surrogate without partner becomes U+FFFD, any other value is the character. -/
def Unquoter.rune (u : Unquoter) (r : Nat) : Unquoter :=
  match u.pending with
  | some hi =>
    if hi < 0xDC00 ∧ 0xDC00 ≤ r ∧ r < 0xE000 then
      { mode := .plain, pending := none,
        out := u.out ++ [Char.ofNat (0x10000 + (hi - 0xD800) * 0x400 + (r - 0xDC00))] }
    else if 0xD800 ≤ r ∧ r < 0xE000 then
      { mode := .plain, pending := some r, out := u.out ++ [replacementChar] }
    else u.emit (Char.ofNat r)
  | none =>
    if 0xD800 ≤ r ∧ r < 0xE000 then { mode := .plain, pending := some r, out := u.out }
    else u.emit (Char.ofNat r)

/-- One character of the literal. -/
def Unquoter.step (u : Unquoter) (c : Char) : Unquoter :=
  match u.mode with
  | .bad => u
  | .plain =>
    if c = '\\' then { u with mode := .esc }
    else if c = '"' ∨ c.toNat < 32 then { u with mode := .bad }
    else u.emit c
  | .esc =>
    if c = 'u' then { u with mode := .hex 0 0 }
    else
      match unescape1 c with
      | some y => u.emit y
      | none => { u with mode := .bad }
  | .hex seen acc =>
    match hexVal c with
    | none => { u with mode := .bad }
    | some v =>
      if seen < 3 then { u with mode := .hex (seen + 1) (acc * 16 + v) }
      else u.rune (acc * 16 + v)

/-- The function `unquoteBytes` on the text between the quotes: resolve the escapes;
`none` when the text is not a well-formed string body. -/
def unquote (raw : List Char) : Option (List Char) :=
  let u := raw.foldl Unquoter.step { mode := .plain, pending := none, out := [] }
  if u.mode = .plain then some u.flush else none

/-- A hexadecimal digit of the encoder (`"0123456789abcdef"`). -/
def hexDigit (n : Nat) : Char :=
  if n % 16 < 10 then Char.ofNat (48 + n % 16) else Char.ofNat (87 + n % 16)

/-- How the encoder writes one character of a string (HTML escaping is on for an
`Encoder`): a short escape for the quote, the backslash and the common control
characters, `\u00XX` for the other control characters and for `<`, `>`, `&`, the escapes of
U+2028 and U+2029 for these two line separators, the character itself otherwise. -/
def escapeChar (c : Char) : List Char :=
  if c = '"' ∨ c = '\\' then ['\\', c]
  else if c = Char.ofNat 8 then ['\\', 'b']
  else if c = Char.ofNat 12 then ['\\', 'f']
  else if c = '\n' then ['\\', 'n']
  else if c = '\r' then ['\\', 'r']
  else if c = '\t' then ['\\', 't']
  else if c.toNat < 32 ∨ c = '<' ∨ c = '>' ∨ c = '&' then
    ['\\', 'u', '0', '0', hexDigit (c.toNat / 16), hexDigit c.toNat]
  else if c = Char.ofNat 0x2028 then ['\\', 'u', '2', '0', '2', '8']
  else if c = Char.ofNat 0x2029 then ['\\', 'u', '2', '0', '2', '9']
  else [c]

/-- The text the encoder writes between the quotes for a string. -/
def escape : List Char → List Char
  | [] => []
  | c :: cs => escapeChar c ++ escape cs

/-- A string as a JSON string literal. -/
def encodeString (s : String) : List Char := '"' :: escape s.data ++ ['"']

/-- The decimal digit for a number below ten. -/
def digitChar (n : Nat) : Char := Char.ofNat (48 + n % 10)

/-- The decimal digits of a natural number, most significant first; `fuel` bounds the
number of digits. -/
def natDigitsAux : Nat → Nat → List Char → List Char
  | 0, _, acc => acc
  | fuel + 1, n, acc =>
    if n / 10 = 0 then digitChar n :: acc
    else natDigitsAux fuel (n / 10) (digitChar n :: acc)

/-- The decimal digits of a natural number. -/
def natDigits (n : Nat) : List Char := natDigitsAux (n + 1) n []

/-- The function `strconv.AppendInt` in base ten. -/
def formatInt (i : Int) : List Char :=
  if i < 0 then '-' :: natDigits i.natAbs else natDigits i.natAbs

/-- The value of a run of decimal digits, continuing from `acc`; `none` when a character
is not a digit. -/
def digitsValue : List Char → Nat → Option Nat
  | [], acc => some acc
  | c :: cs, acc => if isDigit c then digitsValue cs (acc * 10 + (c.toNat - 48)) else none

/-- A non-empty run of decimal digits as a number. -/
def parseDigits (ds : List Char) : Option Nat :=
  match ds with
  | [] => none
  | _ :: _ => digitsValue ds 0

/-- The function `strconv.ParseInt(text, 10, 64)`: an optional sign and decimal digits,
the value within the 64-bit signed range. -/
def parseInt64 (text : List Char) : Option Int :=
  match text with
  | '-' :: ds =>
    match parseDigits ds with
    | some n => if n ≤ 2 ^ 63 then some (-(n : Int)) else none
    | none => none
  | '+' :: ds =>
    match parseDigits ds with
    | some n => if n < 2 ^ 63 then some (n : Int) else none
    | none => none
  | ds =>
    match parseDigits ds with
    | some n => if n < 2 ^ 63 then some (n : Int) else none
    | none => none

/-! ## time: the RFC 3339 text of an instant -/

/-- Whether a year of the proleptic Gregorian calendar is a leap year (`isLeap`). -/
def isLeap (year : Int) : Bool := year % 4 = 0 && (year % 100 != 0 || year % 400 = 0)

/-- The number of days of the years 1 .. `year - 1`. -/
def daysBeforeYear (year : Int) : Int :=
  365 * (year - 1) + (year - 1) / 4 - (year - 1) / 100 + (year - 1) / 400

/-- The number of days of a common year before the first of a month (`daysBefore`). -/
def daysBefore (month : Int) : Int :=
  if month ≤ 1 then 0
  else if month = 2 then 31
  else if month = 3 then 59
  else if month = 4 then 90
  else if month = 5 then 120
  else if month = 6 then 151
  else if month = 7 then 181
  else if month = 8 then 212
  else if month = 9 then 243
  else if month = 10 then 273
  else if month = 11 then 304
  else 334

/-- The number of days of a month (`daysIn`). -/
def daysIn (month year : Int) : Int :=
  if month = 2 then (if isLeap year then 29 else 28)
  else if month = 4 ∨ month = 6 ∨ month = 9 ∨ month = 11 then 30
  else 31

/-- The broken-down form of an instant in UTC. -/
structure Civil where
  year : Int
  month : Int
  day : Int
  hour : Int
  minute : Int
  second : Int
  nsec : Int
deriving DecidableEq, Repr

/-- The year of a day counted from 0001-01-01, with the day's index within that year:
400-year, 100-year, 4-year and 1-year cycles are cut off in turn. -/
def yearOfDay (a : Int) : Int × Int :=
  let n400 := a / 146097
  let r := a % 146097
  let n100 := min (r / 36524) 3
  let r1 := r - 36524 * n100
  let n4 := r1 / 1461
  let r2 := r1 % 1461
  let n1 := min (r2 / 365) 3
  (400 * n400 + 100 * n100 + 4 * n4 + n1 + 1, r2 - 365 * n1)

/-- The month of a day given by its index within a year. -/
def monthOfYday (leap : Bool) (yday : Int) : Int :=
  let d := if leap ∧ yday ≥ 60 then yday - 1 else yday
  if leap ∧ yday = 59 then 2
  else if d < 31 then 1
  else if d < 59 then 2
  else if d < 90 then 3
  else if d < 120 then 4
  else if d < 151 then 5
  else if d < 181 then 6
  else if d < 212 then 7
  else if d < 243 then 8
  else if d < 273 then 9
  else if d < 304 then 10
  else if d < 334 then 11
  else 12

/-- The instant of a date and clock time in UTC (`time.Date`), in nanoseconds. -/
def Civil.toTime (c : Civil) : Time :=
  let days := daysBeforeYear c.year + daysBefore c.month
    + (if isLeap c.year ∧ c.month > 2 then 1 else 0) + (c.day - 1) - 719162
  ((days * 86400 + c.hour * 3600 + c.minute * 60 + c.second) * 1000000000) + c.nsec

/-- The date and clock time of an instant in UTC. -/
def Time.civil (t : Time) : Civil :=
  let sec := t / 1000000000
  let days := sec / 86400
  let sod := sec % 86400
  let yd := yearOfDay (days + 719162)
  let leap := isLeap yd.1
  let month := monthOfYday leap yd.2
  let day := yd.2 - daysBefore month - (if leap ∧ month > 2 then 1 else 0) + 1
  { year := yd.1, month := month, day := day,
    hour := sod / 3600, minute := sod % 3600 / 60, second := sod % 60,
    nsec := t % 1000000000 }

/-- A number below 100 as two digits. -/
def pad2 (n : Int) : List Char := [digitChar (n.toNat / 10), digitChar n.toNat]

/-- A number below 10000 as four digits. -/
def pad4 (n : Int) : List Char :=
  [digitChar (n.toNat / 1000), digitChar (n.toNat / 100), digitChar (n.toNat / 10),
   digitChar n.toNat]

/-- A list without its trailing zero digits. -/
def trimZeros (ds : List Char) : List Char := (ds.reverse.dropWhile (· = '0')).reverse

/-- The fractional second of the layout `.999999999`: nothing for zero, else a period and
the nine digits without trailing zeros. -/
def formatFrac (nsec : Int) : List Char :=
  if nsec = 0 then []
  else
    let n := nsec.toNat
    '.' :: trimZeros [digitChar (n / 100000000), digitChar (n / 10000000),
      digitChar (n / 1000000), digitChar (n / 100000), digitChar (n / 10000),
      digitChar (n / 1000), digitChar (n / 100), digitChar (n / 10), digitChar n]

/-- The RFC 3339 text of an instant in UTC with nanoseconds, as `Time.MarshalJSON` writes
it between the quotes; `none` when the year is outside 0 .. 9999, which is the error
`year outside of range [0,9999]`. -/
def formatRFC3339 (t : Time) : Option (List Char) :=
  let c := t.civil
  if c.year < 0 ∨ 9999 < c.year then none
  else some (pad4 c.year ++ '-' :: pad2 c.month ++ '-' :: pad2 c.day ++ 'T' :: pad2 c.hour
    ++ ':' :: pad2 c.minute ++ ':' :: pad2 c.second ++ formatFrac c.nsec ++ ['Z'])

/-- The local function `parseUint` of `parseRFC3339`: all characters are digits and the value
lies between `lo` and `hi`. -/
def parseUint (ds : List Char) (lo hi : Int) : Option Int :=
  match digitsValue ds 0 with
  | some n => if lo ≤ (n : Int) ∧ (n : Int) ≤ hi then some (n : Int) else none
  | none => none

/-- The function `parseNanoseconds` on the digits after the period: at most nine digits
count, scaled to nanoseconds. -/
def parseNanoseconds (ds : List Char) : Option Int :=
  let ds9 := ds.take 9
  match digitsValue ds9 0 with
  | some n => some ((n * 10 ^ (9 - ds9.length) : Nat) : Int)
  | none => none

/-- The zone designator after the seconds: `Z`, or a sign with hours and minutes; the
result is the offset from UTC in seconds. -/
def parseZone (zs : List Char) : Option Int :=
  match zs with
  | ['Z'] => some 0
  | [sg, h1, h2, col, m1, m2] =>
    match parseUint [h1, h2] 0 23, parseUint [m1, m2] 0 59 with
    | some hr, some mm =>
      if col = ':' then
        if sg = '+' then some ((hr * 60 + mm) * 60)
        else if sg = '-' then some (-((hr * 60 + mm) * 60))
        else none
      else none
    | _, _ => none
  | _ => none

/-- The digits of the fractional second: what follows the seconds when that is a period
and at least one digit. -/
def fracDigits (rest : List Char) : List Char :=
  match rest with
  | p :: f :: more => if p = '.' ∧ isDigit f then f :: more.takeWhile isDigit else []
  | _ => []

/-- The function `parseRFC3339` of `time`: the parser for the exact RFC 3339 form, which
`parseStrictRFC3339` tries first. -/
def parseRFC3339 (s : List Char) : Option Time :=
  match s with
  | y1 :: y2 :: y3 :: y4 :: s4 :: mo1 :: mo2 :: s7 :: d1 :: d2 :: s10 :: h1 :: h2 :: s13
      :: mi1 :: mi2 :: s16 :: sc1 :: sc2 :: rest =>
    match parseUint [y1, y2, y3, y4] 0 9999, parseUint [mo1, mo2] 1 12 with
    | some year, some month =>
      match parseUint [d1, d2] 1 (daysIn month year), parseUint [h1, h2] 0 23,
        parseUint [mi1, mi2] 0 59, parseUint [sc1, sc2] 0 59 with
      | some day, some hour, some minute, some second =>
        if s4 = '-' ∧ s7 = '-' ∧ s10 = 'T' ∧ s13 = ':' ∧ s16 = ':' then
          let frac := fracDigits rest
          let zone := if frac = [] then rest else rest.drop (frac.length + 1)
          match parseNanoseconds frac, parseZone zone with
          | some nsec, some offset =>
            some ((Civil.mk year month day hour minute second nsec).toTime - offset * 1000000000)
          | _, _ => none
        else none
      | _, _, _, _ => none
    | _, _ => none
  | _ => none

/-- The function `getnum` of `time`: one or two leading digits as a number, exactly two when
`fixed`; the rest of the text comes with it. -/
def getnum (s : List Char) (fixed : Bool) : Option (Int × List Char) :=
  match s with
  | [] => none
  | a :: rest =>
    if isDigit a then
      match rest with
      | [] => if fixed then none else some (((a.toNat - 48 : Nat) : Int), [])
      | b :: rest2 =>
        if isDigit b then some ((((a.toNat - 48) * 10 + (b.toNat - 48) : Nat) : Int), rest2)
        else if fixed then none
        else some (((a.toNat - 48 : Nat) : Int), rest)
    else none

/-- A literal character of the layout, which must stand in front of the text. -/
def skipChar (c : Char) (s : List Char) : Option (List Char) :=
  match s with
  | [] => none
  | x :: rest => if x = c then some rest else none

/-- The digits of a fractional second as `time.Parse` reads them after the seconds: what
follows a period or a comma, when that is at least one digit. -/
def fracDigitsLayout (rest : List Char) : List Char :=
  match rest with
  | p :: f :: more =>
    if (p = '.' ∨ p = ',') ∧ isDigit f then f :: more.takeWhile isDigit else []
  | _ => []

/-- The layout element `Z07:00` of `time.Parse` at the end of the text: `Z`, or a sign with
two digits of hours, a colon and two digits of minutes, hours up to 24 and minutes up to
60; the result is the offset from UTC in seconds. -/
def parseZoneLayout (zs : List Char) : Option Int :=
  match zs with
  | [] => none
  | z :: rest =>
    if z = 'Z' then (if rest = [] then some 0 else none)
    else
      match rest with
      | [h1, h2, col, m1, m2] =>
        match getnum [h1, h2] true, getnum [m1, m2] true with
        | some (hr, _), some (mm, _) =>
          if col ≠ ':' ∨ 24 < hr ∨ 60 < mm then none
          else if z = '+' then some ((hr * 60 + mm) * 60)
          else if z = '-' then some (-((hr * 60 + mm) * 60))
          else none
        | _, _ => none
      | _ => none

/-- The call `time.Parse(time.RFC3339, s)`, element by element of the layout
`2006-01-02T15:04:05Z07:00`: four digits of year, two of month and of day, one or two of
hour, two of minute and of second, an optional fractional second after a period or a
comma, and the zone; the ranges are checked, the day against the length of the month. -/
def timeParse (s : List Char) : Option Time := do
  let (year, s1) ←
    match s with
    | y1 :: y2 :: y3 :: y4 :: rest => (parseUint [y1, y2, y3, y4] 0 9999).map (·, rest)
    | _ => none
  let (month, s2) ← (skipChar '-' s1).bind (getnum · true)
  let (day, s3) ← (skipChar '-' s2).bind (getnum · true)
  let (hour, s4) ← (skipChar 'T' s3).bind (getnum · false)
  let (minute, s5) ← (skipChar ':' s4).bind (getnum · true)
  let (second, s6) ← (skipChar ':' s5).bind (getnum · true)
  let frac := fracDigitsLayout s6
  let s7 := if frac = [] then s6 else s6.drop (frac.length + 1)
  let nsec ← parseNanoseconds frac
  let offset ← parseZoneLayout s7
  if month < 1 ∨ 12 < month ∨ 24 ≤ hour ∨ 60 ≤ minute ∨ 60 ≤ second ∨ day < 1
      ∨ daysIn month year < day then none
  else some ((Civil.mk year month day hour minute second nsec).toTime - offset * 1000000000)

/-- The function `parseStrictRFC3339` of `time`, which `Time.UnmarshalJSON` applies to the
text between the quotes: the parser for the exact form and, for a text that one refuses,
`time.Parse` with the layout `RFC3339`, whose result is accepted as it is. -/
def parseStrictRFC3339 (s : List Char) : Option Time :=
  match parseRFC3339 s with
  | some t => some t
  | none => timeParse s

/-! ## encoding/json: the `Token` struct -/

/-- The fields of `Token`, by their `json` tags. -/
inductive Field
  | accessToken
  | tokenType
  | refreshToken
  | expiresIn
  | expiry
deriving DecidableEq, Repr

/-- The `json` tag of each field, in declaration order. -/
def fieldNames : List (List Char × Field) :=
  [("access_token".data, .accessToken), ("token_type".data, .tokenType),
   ("refresh_token".data, .refreshToken), ("expires_in".data, .expiresIn),
   ("expiry".data, .expiry)]

/-- The case folding under which the decoder compares a key that matches no tag exactly:
ASCII letters in upper case, and the two non-ASCII characters whose simple fold is an
ASCII letter (the long s and the Kelvin sign). -/
def foldChar (c : Char) : Char :=
  if 'a' ≤ c ∧ c ≤ 'z' then Char.ofNat (c.toNat - 32)
  else if c = Char.ofNat 0x17F then 'S'
  else if c = Char.ofNat 0x212A then 'K'
  else c

/-- The field a key of the document addresses: the exact tag first, a tag equal under
case folding otherwise. -/
def lookupField (key : List Char) : Option Field :=
  match fieldNames.find? (fun p => p.1 = key) with
  | some p => some p.2
  | none => (fieldNames.find? (fun p => p.1.map foldChar = key.map foldChar)).map (·.2)

/-- The outcome of storing one member's value into its field. -/
inductive Stored
  | set (t : Token)
  | typeError (msg : String)
  | abort (msg : String)
deriving DecidableEq, Repr

/-- Store a value into a field of the struct. `null` leaves every field as it is. A string
or integer field whose value has another kind is an `UnmarshalTypeError`, which the decoder
records and passes over. The `Expiry` field is a `time.Time`, whose `UnmarshalJSON` parses
the text between the quotes as it stands in the document; its error ends the decoding. -/
def storeField (t : Token) (f : Field) (v : JValue) : Stored :=
  match f, v with
  | _, .null => .set t
  | .accessToken, .str raw =>
    match unquote raw with
    | some s => .set { t with AccessToken := String.mk s }
    | none => .typeError "json: invalid string literal"
  | .tokenType, .str raw =>
    match unquote raw with
    | some s => .set { t with TokenType := String.mk s }
    | none => .typeError "json: invalid string literal"
  | .refreshToken, .str raw =>
    match unquote raw with
    | some s => .set { t with RefreshToken := String.mk s }
    | none => .typeError "json: invalid string literal"
  | .expiresIn, .num text =>
    match parseInt64 text with
    | some n => .set { t with ExpiresIn := n }
    | none => .typeError "json: cannot unmarshal number into Go struct field Token.expires_in of type int"
  | .expiry, .str raw =>
    match parseStrictRFC3339 raw with
    | some x => .set { t with Expiry := x }
    | none => .abort "parsing time: cannot parse as RFC 3339"
  | .expiry, _ => .abort "Time.UnmarshalJSON: input is not a JSON string"
  | .accessToken, _ => .typeError "json: cannot unmarshal into Go struct field Token.access_token of type string"
  | .tokenType, _ => .typeError "json: cannot unmarshal into Go struct field Token.token_type of type string"
  | .refreshToken, _ => .typeError "json: cannot unmarshal into Go struct field Token.refresh_token of type string"
  | .expiresIn, _ => .typeError "json: cannot unmarshal into Go struct field Token.expires_in of type int"

/-- The members of an object stored into the struct in document order; `saved` is the first
type error met so far, which is the error returned when the object has been read. -/
def decodeMembers : List (List Char × JValue) → Token → Option String → Token × Option String
  | [], t, saved => (t, saved)
  | (k, v) :: rest, t, saved =>
    match (unquote k).bind lookupField with
    | none => decodeMembers rest t saved
    | some f =>
      match storeField t f v with
      | .set t1 => decodeMembers rest t1 saved
      | .typeError msg => decodeMembers rest t (saved.orElse fun _ => some msg)
      | .abort msg => (t, some msg)

/-- The call `json.NewDecoder(r).Decode(t)` for `t : *Token`, where `text` is what `r`
delivers: the struct after the call and the error. -/
def jsonDecode (text : List Char) (t : Token) : Token × Option String :=
  match readValue text with
  | .syntaxError => (t, some "invalid character in JSON input")
  | .eof => (t, some "EOF")
  | .unexpectedEOF => (t, some "unexpected EOF")
  | .value .object members => decodeMembers members t none
  | .value .null _ => (t, none)
  | .value _ _ => (t, some "json: cannot unmarshal into Go value of type api.Token")

/-- A field name as the encoder writes it in front of the value: quoted, with a colon. -/
def encodeKey (name : String) : List Char := '"' :: name.data ++ ['"', ':']

/-- The text `json.NewEncoder(w).Encode(t)` writes for `t : *Token`: the compact object
with the five tagged fields in declaration order and a newline; `none` when
`Time.MarshalJSON` fails, in which case the encoder writes nothing. -/
def jsonEncode (t : Token) : Option (List Char) :=
  match formatRFC3339 t.Expiry with
  | none => none
  | some ts =>
    some ('{' :: encodeKey "access_token" ++ encodeString t.AccessToken
      ++ ',' :: encodeKey "token_type" ++ encodeString t.TokenType
      ++ ',' :: encodeKey "refresh_token" ++ encodeString t.RefreshToken
      ++ ',' :: encodeKey "expires_in" ++ formatInt t.ExpiresIn
      ++ ',' :: encodeKey "expiry" ++ '"' :: ts ++ ['"', '}', '\n'])

/-! ## The world outside the process -/

/-- The answer of `client.Do` to a request. -/
inductive HttpResult
  | failure (err : String)
  | response (StatusCode : Int) (Status : String) (Body : String)
deriving DecidableEq, Repr

/-- The constant `Port`. -/
def Port : String := "8000"

/-- The constant `AuthURL`. -/
def AuthURL : String := "https://accounts.spotify.com/authorize"

/-- The constant `TokenURL`. -/
def TokenURL : String := "https://accounts.spotify.com/api/token"

/-- The constant `RedirectURI`. -/
def RedirectURI : String := "http://127.0.0.1:" ++ Port ++ "/callback"

/-- The `Artist` struct of `api.go`. -/
structure Artist where
  Name : String
deriving DecidableEq, Repr

/-- The `Item` struct of `api.go`. -/
structure Item where
  Name : String
  URI : String
  DurationMs : Int
  Artists : List Artist
deriving DecidableEq, Repr

/-- The `Context` struct of `api.go`. -/
structure Context where
  URI : String
  Type_ : String
deriving DecidableEq, Repr

/-- The `PlayerState` struct of `api.go`; a nil pointer is `none`. -/
structure PlayerState where
  IsPlaying : Bool
  ProgressMs : Int
  Item : Option Item
  Context : Option Context
deriving DecidableEq, Repr

/-- The answer of the player endpoint to `GET me/player`: a transport failure, or a
response with its status code and the outcome of decoding its body into a `PlayerState`. -/
inductive PlayerReply
  | failure (err : String)
  | response (StatusCode : Int) (decoded : Except String PlayerState)
deriving Repr

/-- The effects of the process that can be observed from outside. -/
inductive Event
  | print (text : String)
  | post (url : String) (clientID clientSecret : String) (form : List (String × String))
  | openBrowser (url : String)
  | callbackServed (code : String)
  | createFile (path : String)
deriving DecidableEq, Repr

/-- The environment of one run: the outcome of the directory look-ups of
`getTokenPath`, the credential file, the clock (the current reading and the readings
to come), the replies the token endpoint will give, the authorization code the browser
will deliver to `/callback` (`none`: no request ever arrives), the reply of the player
endpoint, the status file with its temporary sibling, and the log of effects. -/
structure World where
  userConfigDir : Except String String
  userHomeDir : Except String String
  mkdirAllErr : Option String
  createErr : Option String
  tokenFile : Option String
  now : Time
  clock : List Time
  tokenEndpoint : List HttpResult
  callback : Option String
  player : PlayerReply
  statusCreateErr : Option String
  statusTmp : Option String
  statusFile : Option String
  log : List Event

/-- The call `time.Now()`: the current reading; the clock moves on to its next reading. -/
def World.timeNow (w : World) : Time × World :=
  (w.now, match w.clock with
          | [] => w
          | t :: ts => { w with now := t, clock := ts })

/-- Append an effect to the log. -/
def World.emit (w : World) (e : Event) : World := { w with log := w.log ++ [e] }

/-- A request to the token endpoint leaves the process: it is logged, and the endpoint's
next reply is taken. -/
def World.send (w : World) (e : Event) : World :=
  { w with log := w.log ++ [e], tokenEndpoint := w.tokenEndpoint.tail }

/-! ## auth.go -/

/-- The function `getTokenPath`: the per-user configuration directory (or `.config` under
the home directory), the application directory created in it, and the file name. -/
def getTokenPath (w : World) : Except String String :=
  let configDir : Except String String :=
    match w.userConfigDir with
    | .ok dir => .ok dir
    | .error _ =>
      match w.userHomeDir with
      | .error err => .error err
      | .ok home => .ok (home ++ "/.config")
  match configDir with
  | .error err => .error err
  | .ok dir =>
    let appDir := dir ++ "/spotify-mini"
    match w.mkdirAllErr with
    | some err => .error err
    | none => .ok (appDir ++ "/token.json")

/-- The function `saveToken`. A path error is printed and nothing is written. `os.Create`
truncates the file; its error is dropped, and writing to the nil file then fails without
effect. The encoder writes the whole document or, when encoding fails, nothing. -/
def saveToken (w : World) (t : Token) : World :=
  match getTokenPath w with
  | .error err => w.emit (.print ("Error getting token path: " ++ err ++ "\n"))
  | .ok path =>
    match w.createErr with
    | some _ => w
    | none =>
      match jsonEncode t with
      | none => { w.emit (.createFile path) with tokenFile := some "" }
      | some text => { w.emit (.createFile path) with tokenFile := some (String.mk text) }

/-- The function `loadToken`: the pointer and the error it returns. The pointer is nil
exactly when the path or the file cannot be had; after a failed decoding both the
partly filled struct and the error are returned. -/
def loadToken (w : World) : Option Token × Option String :=
  match getTokenPath w with
  | .error err => (none, some err)
  | .ok _ =>
    match w.tokenFile with
    | none => (none, some "open token.json: no such file or directory")
    | some text =>
      let r := jsonDecode text.data Token.zero
      (some r.1, r.2)

/-- The function `makeTokenRequest`. The request is answered by the next reply of the
token endpoint (none left: the client times out). -/
def makeTokenRequest (w : World) (clientID clientSecret : String)
    (data : List (String × String)) : Except String Token × World :=
  let w1 := w.send (.post TokenURL clientID clientSecret data)
  match w.tokenEndpoint.head? with
  | none => (.error "context deadline exceeded (Client.Timeout exceeded)", w1)
  | some (.failure err) => (.error err, w1)
  | some (.response statusCode status body) =>
    if statusCode ≠ 200 then (.error ("API Error: " ++ status), w1)
    else
      let newToken := (jsonDecode body.data Token.zero).1
      let tw := w1.timeNow
      let newToken :=
        { newToken with
          Expiry := Time.Add tw.1 (wrap64 (wrap64 (newToken.ExpiresIn - 10) * Second)) }
      let newToken :=
        if newToken.RefreshToken = "" then
          match (loadToken tw.2).1 with
          | some old => { newToken with RefreshToken := old.RefreshToken }
          | none => newToken
        else newToken
      (.ok newToken, saveToken tw.2 newToken)

/-- The function `exchangeCode`. -/
def exchangeCode (w : World) (clientID clientSecret code : String) :
    Except String Token × World :=
  makeTokenRequest w clientID clientSecret
    [("grant_type", "authorization_code"), ("code", code), ("redirect_uri", RedirectURI)]

/-- The function `refreshToken`. -/
def refreshToken (w : World) (clientID clientSecret refreshStr : String) :
    Except String Token × World :=
  makeTokenRequest w clientID clientSecret
    [("grant_type", "refresh_token"), ("refresh_token", refreshStr)]

/-- The UTF-8 bytes of a character. -/
def utf8Bytes (c : Char) : List Nat :=
  let n := c.toNat
  if n < 0x80 then [n]
  else if n < 0x800 then [0xC0 + n / 64, 0x80 + n % 64]
  else if n < 0x10000 then [0xE0 + n / 4096, 0x80 + n / 64 % 64, 0x80 + n % 64]
  else [0xF0 + n / 262144, 0x80 + n / 4096 % 64, 0x80 + n / 64 % 64, 0x80 + n % 64]

/-- An upper-case hexadecimal digit. -/
def upperHex (n : Nat) : Char :=
  if n % 16 < 10 then Char.ofNat (48 + n % 16) else Char.ofNat (55 + n % 16)

/-- The function `url.QueryEscape`. -/
def queryEscape (s : String) : String :=
  String.mk (s.data.flatMap fun c =>
    if c.isAlphanum ∨ c = '-' ∨ c = '_' ∨ c = '.' ∨ c = '~' then [c]
    else if c = ' ' then ['+']
    else (utf8Bytes c).flatMap fun b => ['%', upperHex (b / 16), upperHex b])

/-- The method `url.Values.Encode` for keys given in sorted order. -/
def encodeValues (v : List (String × String)) : String :=
  "&".intercalate (v.map fun p => queryEscape p.1 ++ "=" ++ queryEscape p.2)

/-- The function `startWebLogin`: print the login URL, launch the browser, wait on the
callback channel for the authorization code, shut the listener down and exchange the
code. The result is `none` when no callback request ever arrives, in which case the
function does not return. The listener, its goroutine and the channel are reduced to the
one thing the caller sees of them, the code that arrives. -/
def startWebLogin (w : World) (clientID clientSecret : String) :
    Option (Except String Token) × World :=
  let scopes := "user-read-playback-state user-modify-playback-state"
  let v := [("client_id", clientID), ("redirect_uri", RedirectURI),
            ("response_type", "code"), ("scope", scopes)]
  let loginURL := AuthURL ++ "?" ++ encodeValues v
  let w1 := (w.emit (.print ("Login required. Opening browser: " ++ loginURL ++ "\n"))).emit
              (.openBrowser loginURL)
  match w.callback with
  | none => (none, w1)
  | some code =>
    let r := exchangeCode (w1.emit (.callbackServed code)) clientID clientSecret code
    (some r.1, r.2)

/-- The function `Authenticate`. The result is `none` when the call does not return. -/
def Authenticate (w : World) (clientID clientSecret : String) :
    Option (Except String Token) × World :=
  match loadToken w with
  | (some token, none) =>
    let tw := w.timeNow
    if Time.After tw.1 token.Expiry then
      match refreshToken tw.2 clientID clientSecret token.RefreshToken with
      | (.ok newToken, w2) => (some (.ok newToken), w2)
      | (.error _, w2) =>
        startWebLogin (w2.emit (.print "Refresh failed, restarting login flow...\n"))
          clientID clientSecret
    else (some (.ok token), tw.2)
  | _ => startWebLogin w clientID clientSecret

/-! ## api.go and main.go: the status line -/

/-- The function `GetCurrentPlaying`: the pointer and the error it returns. -/
def GetCurrentPlaying (w : World) (_token : Token) : Option PlayerState × Option String :=
  match w.player with
  | .failure err => (none, some err)
  | .response statusCode decoded =>
    if statusCode = 204 then (none, none)
    else
      match decoded with
      | .error err => (none, some err)
      | .ok state => (some state, none)

/-- The literal `getStatusJSON` returns when nothing is playing. -/
def stoppedStatus : String :=
  "\x7b\"text\": \"\", \"class\": \"spotify\", \"alt\": \"stopped\"\x7d"

/-- The function `getStatusJSON`. The result is an error when the function panics: the
expression `state.Item.Artists[0]` indexes the artist list without a length check. -/
def getStatusJSON (w : World) (token : Token) : Except String String :=
  match GetCurrentPlaying w token with
  | (_, some _) => .ok stoppedStatus
  | (none, none) => .ok stoppedStatus
  | (some state, none) =>
    match state.Item with
    | none => .ok stoppedStatus
    | some item =>
      let icon := if !state.IsPlaying then String.mk [Char.ofNat 0xF289]
                  else String.mk [Char.ofNat 0xF1BC]
      match item.Artists with
      | [] => .error "runtime error: index out of range [0] with length 0"
      | first :: _ =>
        let artist := first.Name
        let title := item.Name
        .ok ("\x7b\"text\": \"" ++ icon ++ " " ++ title ++ "\", \"class\": \"spotify\", \"tooltip\": \""
          ++ title ++ " by " ++ artist ++ "\", \"alt\": \""
          ++ (if state.IsPlaying then "playing" else "paused") ++ "\"\x7d")

/-- The function `writeStatusToFile`: the status text goes to the temporary file, which
is then renamed over the status file. When the temporary file cannot be created the
errors are dropped and the rename moves whatever temporary file is there. A panic of
`getStatusJSON` ends the process before anything is written. -/
def writeStatusToFile (w : World) (token : Token) : Except String World :=
  match getStatusJSON w token with
  | .error p => .error p
  | .ok jsonOut =>
    match w.statusCreateErr with
    | none => .ok { w with statusTmp := none, statusFile := some jsonOut }
    | some _ =>
      match w.statusTmp with
      | some old => .ok { w with statusTmp := none, statusFile := some old }
      | none => .ok w

/-! ## Auxiliary definitions of the proofs -/

/-- The check of `dayOfMonth_spec` at one day index. -/
def monthDayOK (leap : Bool) (n : Nat) : Bool :=
  let yday : Int := n
  let m := monthOfYday leap yday
  let day := yday - daysBefore m - (if leap ∧ m > 2 then 1 else 0) + 1
  decide (yday < (if leap then 366 else 365)) →
    (decide (1 ≤ m) && decide (m ≤ 12) && decide (1 ≤ day)
      && decide (day ≤ (if m = 2 then (if leap then 29 else 28)
                        else if m = 4 ∨ m = 6 ∨ m = 9 ∨ m = 11 then 30 else 31)))

/-- A scanner state inside a top-level value. -/
def scanAt (step : Step) (ps : List ParseState) (cur key : List Char)
    (members : List (List Char × JValue)) : Scanner :=
  { step := step, parseState := ps, cur := cur, curLit := .null, key := key,
    members := members, top := none, junk := false }

/-- A character that stands for itself inside a string literal. -/
def plainChar (c : Char) : Bool := c != '"' && c != '\\' && decide (32 ≤ c.toNat)

/-- The state of `unquoteBytes` between two characters of the result. -/
def unqAt (out : List Char) : Unquoter := { mode := .plain, pending := none, out := out }

/-- The credential `makeTokenRequest` builds from a reply body at clock reading `t`, given
the outcome `old` of loading the stored credential. -/
def tokenFromReply (body : String) (t : Time) (old : Option Token) : Token :=
  let d := (jsonDecode body.data Token.zero).1
  { AccessToken := d.AccessToken, TokenType := d.TokenType,
    RefreshToken := if d.RefreshToken = "" then
                      (match old with
                       | some o => o.RefreshToken
                       | none => d.RefreshToken)
                    else d.RefreshToken,
    ExpiresIn := d.ExpiresIn,
    Expiry := t + wrap64 (wrap64 (d.ExpiresIn - 10) * 1000000000) }

deriving instance DecidableEq for Except

/-- A credential as the provider issues it: valid until 2026-11-04T17:11:00Z. -/
def exampleToken : Token :=
  { AccessToken := "A1", TokenType := "Bearer", RefreshToken := "R1", ExpiresIn := 3600,
    Expiry := 1793812260000000000 }

/-- The credential file `saveToken` writes for `exampleToken`. -/
def exampleFile : String :=
  "\x7b\"access_token\":\"A1\",\"token_type\":\"Bearer\",\"refresh_token\":\"R1\",\"expires_in\":3600,\"expiry\":\"2026-11-04T17:11:00Z\"\x7d\n"

/-- A world with a working file system, the given credential file, clock reading, replies
of the token endpoint and authorization code of the callback, and nothing playing. -/
def exampleWorld (file : Option String) (now : Time) (replies : List HttpResult)
    (code : Option String) : World :=
  { userConfigDir := .ok "/home/u/.config", userHomeDir := .ok "/home/u", mkdirAllErr := none,
    createErr := none, tokenFile := file, now := now, clock := [], tokenEndpoint := replies,
    callback := code, player := .response 204 (.error "EOF"), statusCreateErr := none,
    statusTmp := none, statusFile := none, log := [] }

/-- The form `refreshToken` posts for the stored refresh token `R1`. -/
def refreshForm : List (String × String) :=
  [("grant_type", "refresh_token"), ("refresh_token", "R1")]

/-- The reply of the spec's refresh scenario: a new access token and no refresh token. -/
def refreshReply : HttpResult :=
  .response 200 "200 OK" "\x7b\"access_token\":\"A2\",\"expires_in\":3600\x7d"

/-- A reply whose `expires_in` is the least value for which `(ExpiresIn - 10) * time.Second`
no longer fits 64 bits. -/
def overflowReply : HttpResult :=
  .response 200 "200 OK" "\x7b\"access_token\":\"A2\",\"expires_in\":9223372047\x7d"

/-- A reply whose `expires_in` is the greatest value for which that product still fits. -/
def boundaryReply : HttpResult :=
  .response 200 "200 OK" "\x7b\"access_token\":\"A2\",\"expires_in\":9223372046\x7d"

/-- A credential whose expiry falls in the year 10000. -/
def farToken : Token :=
  { AccessToken := "A1", TokenType := "Bearer", RefreshToken := "R1", ExpiresIn := 3600,
    Expiry := 253402300800000000000 }

/-- A player state with the given title, artists and playing flag. -/
def playing (title : String) (artists : List Artist) (isPlaying : Bool) : PlayerReply :=
  .response 200 (.ok { IsPlaying := isPlaying, ProgressMs := 0,
                       Item := some { Name := title, URI := "", DurationMs := 1, Artists := artists },
                       Context := none })

/-- The status text of the spec's scenario: the same object without white space. -/
def compactStopped : String := "\x7b\"text\":\"\",\"class\":\"spotify\",\"alt\":\"stopped\"\x7d"

/-! ## Lemmas -/

/-! ### The calendar -/

theorem isLeap_iff (y : Int) : isLeap y = true ↔ (y % 4 = 0 ∧ (y % 100 ≠ 0 ∨ y % 400 = 0)) := by
  simp [isLeap]

theorem cycles_spec (a n400 r q n100 n4 r2 q2 n1 : Int)
    (h1 : n400 = a / 146097) (h2 : r = a % 146097) (h3 : q = r / 36524)
    (h4 : n100 = min q 3) (h5 : n4 = (r - 36524 * n100) / 1461)
    (h6 : r2 = (r - 36524 * n100) % 1461) (h7 : q2 = r2 / 365) (h8 : n1 = min q2 3) :
    daysBeforeYear (400 * n400 + 100 * n100 + 4 * n4 + n1 + 1) + (r2 - 365 * n1) = a
    ∧ 0 ≤ r2 - 365 * n1
    ∧ r2 - 365 * n1 < (if isLeap (400 * n400 + 100 * n100 + 4 * n4 + n1 + 1) then 366 else 365) := by
  have hr0 : 0 ≤ r := by omega
  have hr1 : r < 146097 := by omega
  have ha : a = 146097 * n400 + r := by omega
  have hq0 : 0 ≤ q := by omega
  have hq1 : q ≤ 4 := by omega
  have hn100' : (q ≤ 3 ∧ n100 = q) ∨ (q = 4 ∧ n100 = 3) := by
    rcases le_or_lt q 3 with h | h
    · left; exact ⟨h, by rw [h4]; exact min_eq_left h⟩
    · right; exact ⟨by omega, by rw [h4]; exact min_eq_right (by omega)⟩
  have hq20 : 0 ≤ q2 := by omega
  have hq21 : q2 ≤ 4 := by omega
  have hn1' : (q2 ≤ 3 ∧ n1 = q2) ∨ (q2 = 4 ∧ n1 = 3) := by
    rcases le_or_lt q2 3 with h | h
    · left; exact ⟨h, by rw [h8]; exact min_eq_left h⟩
    · right; exact ⟨by omega, by rw [h8]; exact min_eq_right (by omega)⟩
  clear h4 h8
  have hn4 : 0 ≤ n4 ∧ n4 ≤ 24 := by
    rcases hn100' with ⟨_, _⟩ | ⟨_, _⟩ <;> omega
  have e1 : (400 * n400 + 100 * n100 + 4 * n4 + n1 + 1 - 1) / 4 = 100 * n400 + 25 * n100 + n4 := by
    rcases hn1' with ⟨_, _⟩ | ⟨_, _⟩ <;> omega
  have e2 : (400 * n400 + 100 * n100 + 4 * n4 + n1 + 1 - 1) / 100 = 4 * n400 + n100 := by
    rcases hn1' with ⟨_, _⟩ | ⟨_, _⟩ <;> omega
  have e3 : (400 * n400 + 100 * n100 + 4 * n4 + n1 + 1 - 1) / 400 = n400 := by
    rcases hn100' with ⟨_, _⟩ | ⟨_, _⟩ <;> rcases hn1' with ⟨_, _⟩ | ⟨_, _⟩ <;> omega
  refine ⟨?_, ?_, ?_⟩
  · rw [daysBeforeYear, e1, e2, e3]
    rcases hn100' with ⟨_, _⟩ | ⟨_, _⟩ <;> rcases hn1' with ⟨_, _⟩ | ⟨_, _⟩ <;> omega
  · rcases hn1' with ⟨_, _⟩ | ⟨_, _⟩ <;> omega
  · by_cases hl : isLeap (400 * n400 + 100 * n100 + 4 * n4 + n1 + 1) = true
    · rw [if_pos hl]
      rcases hn1' with ⟨_, _⟩ | ⟨_, _⟩ <;> omega
    · rw [if_neg hl]
      rw [isLeap_iff] at hl
      rcases hn100' with ⟨_, _⟩ | ⟨_, _⟩ <;> rcases hn1' with ⟨_, _⟩ | ⟨_, _⟩ <;> omega

theorem yearOfDay_spec (a : Int) :
    daysBeforeYear (yearOfDay a).1 + (yearOfDay a).2 = a
    ∧ 0 ≤ (yearOfDay a).2
    ∧ (yearOfDay a).2 < (if isLeap (yearOfDay a).1 then 366 else 365) :=
  cycles_spec a _ _ _ _ _ _ _ _ rfl rfl rfl rfl rfl rfl rfl rfl

/-! ### Decimal digits and the fractional second -/

theorem digit_small : ∀ j : Nat, j < 10 →
    isDigit (Char.ofNat (48 + j)) = true ∧ (Char.ofNat (48 + j)).toNat - 48 = j := by
  decide

theorem isDigit_digitChar (k : Nat) : isDigit (digitChar k) = true :=
  (digit_small (k % 10) (Nat.mod_lt _ (by decide))).1

theorem toNat_digitChar (k : Nat) : (digitChar k).toNat - 48 = k % 10 :=
  (digit_small (k % 10) (Nat.mod_lt _ (by decide))).2

theorem digitsValue_cons_digitChar (k : Nat) (cs : List Char) (acc : Nat) :
    digitsValue (digitChar k :: cs) acc = digitsValue cs (acc * 10 + k % 10) := by
  simp [digitsValue, isDigit_digitChar, toNat_digitChar]

theorem digitsValue_nil (acc : Nat) : digitsValue [] acc = some acc := rfl

theorem trimZeros_decomp (ds : List Char) :
    ∃ k, ds = trimZeros ds ++ List.replicate k '0' := by
  have h := List.takeWhile_append_dropWhile (fun c => decide (c = '0')) ds.reverse
  have htw : ∀ x ∈ ds.reverse.takeWhile (fun c => decide (c = '0')), x = '0' := by
    intro x hx
    simpa using List.mem_takeWhile_imp hx
  have hrep := List.eq_replicate_of_mem htw
  refine ⟨(ds.reverse.takeWhile (fun c => decide (c = '0'))).length, ?_⟩
  have h2 := congrArg List.reverse h
  rw [List.reverse_append, List.reverse_reverse] at h2
  have hrev : (ds.reverse.takeWhile (fun c => decide (c = '0'))).reverse
      = List.replicate (ds.reverse.takeWhile (fun c => decide (c = '0'))).length '0' := by
    conv_lhs => rw [hrep]
    rw [List.reverse_replicate]
  unfold trimZeros
  rw [← hrev]
  exact h2.symm

theorem digitsValue_zeros (k acc : Nat) :
    digitsValue (List.replicate k '0') acc = some (acc * 10 ^ k) := by
  induction k generalizing acc with
  | zero => simp [digitsValue]
  | succ k ih =>
    have : isDigit '0' = true := by decide
    simp only [List.replicate_succ, digitsValue, this, if_true, ih]
    congr 1
    have : ('0' : Char).toNat - 48 = 0 := by decide
    rw [this, pow_succ]; ring

theorem digitsValue_append_zeros (ds : List Char) (k acc : Nat) :
    digitsValue (ds ++ List.replicate k '0') acc
      = (digitsValue ds acc).map (· * 10 ^ k) := by
  induction ds generalizing acc with
  | nil => simp [digitsValue, digitsValue_zeros]
  | cons c cs ih =>
    simp only [List.cons_append, digitsValue]
    split
    · exact ih _
    · rfl

theorem digitsValue_all_digits (ds : List Char) (acc v : Nat)
    (h : digitsValue ds acc = some v) : ∀ c ∈ ds, isDigit c = true := by
  induction ds generalizing acc with
  | nil => simp
  | cons c cs ih =>
    simp only [digitsValue] at h
    split at h
    · intro x hx
      rcases List.mem_cons.1 hx with rfl | hx
      · assumption
      · exact ih _ h x hx
    · cases h

theorem takeWhile_digits (ds : List Char) (z : Char) (more : List Char)
    (h : ∀ c ∈ ds, isDigit c = true) (hz : isDigit z = false) :
    (ds ++ z :: more).takeWhile isDigit = ds := by
  induction ds with
  | nil => simp [List.takeWhile, hz]
  | cons c cs ih =>
    rw [List.cons_append, List.takeWhile_cons, h c (List.mem_cons_self _ _), if_pos rfl,
      ih (fun x hx => h x (List.mem_cons_of_mem _ hx))]

theorem frac_spec (ns : Int) (h0 : 0 ≤ ns) (h1 : ns < 1000000000) :
    parseNanoseconds (fracDigits (formatFrac ns ++ ['Z'])) = some ns
    ∧ (if fracDigits (formatFrac ns ++ ['Z']) = [] then formatFrac ns ++ ['Z']
       else (formatFrac ns ++ ['Z']).drop ((fracDigits (formatFrac ns ++ ['Z'])).length + 1))
      = ['Z'] := by
  by_cases hz : ns = 0
  · subst hz
    simp [formatFrac, fracDigits, parseNanoseconds, digitsValue]
  · obtain ⟨n, rfl⟩ : ∃ n : Nat, ns = n := ⟨ns.toNat, (Int.toNat_of_nonneg h0).symm⟩
    have hn : n < 1000000000 := by exact_mod_cast h1
    have hn0 : n ≠ 0 := by intro h; apply hz; simp [h]
    simp only [formatFrac, hz, if_false, Int.toNat_ofNat]
    generalize hds : [digitChar (n / 100000000), digitChar (n / 10000000),
      digitChar (n / 1000000), digitChar (n / 100000), digitChar (n / 10000),
      digitChar (n / 1000), digitChar (n / 100), digitChar (n / 10), digitChar n] = ds
    have hlen : ds.length = 9 := by rw [← hds]; rfl
    have hval : digitsValue ds 0 = some n := by
      rw [← hds]
      simp only [digitsValue_cons_digitChar, digitsValue_nil]
      congr 1
      omega
    obtain ⟨k, hk⟩ := trimZeros_decomp ds
    generalize htr : trimZeros ds = tr at hk
    have hlen2 : tr.length + k = 9 := by
      rw [← hlen, hk]; simp
    have hval2 : (digitsValue tr 0).map (· * 10 ^ k) = some n := by
      rw [← digitsValue_append_zeros, ← hk]; exact hval
    obtain ⟨v, hv, hvn⟩ : ∃ v, digitsValue tr 0 = some v ∧ v * 10 ^ k = n := by
      cases hd : digitsValue tr 0 with
      | none => rw [hd] at hval2; cases hval2
      | some v => rw [hd] at hval2; exact ⟨v, rfl, by simpa using hval2⟩
    have hdig := digitsValue_all_digits tr 0 v hv
    cases tr with
    | nil =>
      simp [digitsValue] at hv
      subst hv
      simp at hvn
      exact absurd hvn.symm hn0
    | cons f more =>
      have hf : isDigit f = true := hdig f (List.mem_cons_self _ _)
      have hmore : ∀ c ∈ more, isDigit c = true := fun c hc => hdig c (List.mem_cons_of_mem _ hc)
      have hZ : isDigit 'Z' = false := by decide
      have hfd : fracDigits ('.' :: (f :: more) ++ ['Z']) = f :: more := by
        simp only [fracDigits, List.cons_append, hf, and_self, if_true]
        rw [takeWhile_digits more 'Z' [] hmore hZ]
      rw [hfd]
      constructor
      · have hk9 : k = 9 - (f :: more).length := by omega
        have htake : (f :: more).take 9 = f :: more := List.take_of_length_le (by omega)
        simp only [parseNanoseconds, htake, hv]
        rw [← hk9, hvn]
      · simp

theorem parseUint_two (n lo hi : Int) (h0 : 0 ≤ n) (h1 : n < 100) (hlo : lo ≤ n) (hhi : n ≤ hi) :
    parseUint [digitChar (n.toNat / 10), digitChar n.toNat] lo hi = some n := by
  have hv : ((0 * 10 + n.toNat / 10 % 10) * 10 + n.toNat % 10 : Nat) = n.toNat := by omega
  have hc : ((n.toNat : Nat) : Int) = n := Int.toNat_of_nonneg h0
  simp only [parseUint, digitsValue_cons_digitChar, digitsValue_nil, hv]
  simp [hc, hlo, hhi]

theorem parseUint_four (n lo hi : Int) (h0 : 0 ≤ n) (h1 : n < 10000) (hlo : lo ≤ n)
    (hhi : n ≤ hi) :
    parseUint [digitChar (n.toNat / 1000), digitChar (n.toNat / 100), digitChar (n.toNat / 10),
      digitChar n.toNat] lo hi = some n := by
  have hv : ((((0 * 10 + n.toNat / 1000 % 10) * 10 + n.toNat / 100 % 10) * 10
      + n.toNat / 10 % 10) * 10 + n.toNat % 10 : Nat) = n.toNat := by omega
  have hc : ((n.toNat : Nat) : Int) = n := Int.toNat_of_nonneg h0
  simp only [parseUint, digitsValue_cons_digitChar, digitsValue_nil, hv]
  simp [hc, hlo, hhi]

theorem monthDayOK_all : ∀ leap : Bool, ∀ n : Nat, n < 366 → monthDayOK leap n = true := by
  decide

theorem dayOfMonth_spec (year yday : Int) (h0 : 0 ≤ yday)
    (h1 : yday < (if isLeap year then 366 else 365)) :
    1 ≤ monthOfYday (isLeap year) yday ∧ monthOfYday (isLeap year) yday ≤ 12
    ∧ 1 ≤ yday - daysBefore (monthOfYday (isLeap year) yday)
          - (if isLeap year ∧ monthOfYday (isLeap year) yday > 2 then 1 else 0) + 1
    ∧ yday - daysBefore (monthOfYday (isLeap year) yday)
          - (if isLeap year ∧ monthOfYday (isLeap year) yday > 2 then 1 else 0) + 1
        ≤ daysIn (monthOfYday (isLeap year) yday) year := by
  obtain ⟨n, rfl⟩ : ∃ n : Nat, yday = n := ⟨yday.toNat, (Int.toNat_of_nonneg h0).symm⟩
  have hn : n < 366 := by split at h1 <;> omega
  have h := monthDayOK_all (isLeap year) n hn
  simp only [monthDayOK, Bool.decide_eq_true, Bool.and_eq_true, decide_eq_true_eq,
    Bool.forall_bool] at h
  have h' := h h1
  unfold daysIn
  exact ⟨h'.1.1.1, h'.1.1.2, h'.1.2, h'.2⟩

/-! ### The scanner inside a string literal -/

theorem run_append (s : Scanner) (a b : List Char) : s.run (a ++ b) = (s.run a).run b := by
  simp [Scanner.run, List.foldl_append]

theorem run_cons (s : Scanner) (c : Char) (cs : List Char) :
    s.run (c :: cs) = (s.stepChar c).run cs := rfl

theorem run_nil (s : Scanner) : s.run [] = s := rfl

theorem step_plain (ps : List ParseState) (cur key : List Char)
    (m : List (List Char × JValue)) (c : Char) (h : plainChar c = true) :
    (scanAt .inString ps cur key m).stepChar c = scanAt .inString ps (cur ++ [c]) key m := by
  simp only [plainChar, Bool.and_eq_true, bne_iff_ne, ne_eq, decide_eq_true_eq] at h
  have h3 : ¬ c.toNat < 32 := by omega
  simp [Scanner.stepChar, scanAt, h.1.1, h.1.2, h3]

theorem step_backslash (ps : List ParseState) (cur key : List Char)
    (m : List (List Char × JValue)) :
    (scanAt .inString ps cur key m).stepChar '\\'
      = scanAt .inStringEsc ps (cur ++ ['\\']) key m := rfl

theorem step_esc (ps : List ParseState) (cur key : List Char)
    (m : List (List Char × JValue)) (c : Char)
    (h : c = 'b' ∨ c = 'f' ∨ c = 'n' ∨ c = 'r' ∨ c = 't' ∨ c = '\\' ∨ c = '/' ∨ c = '"') :
    (scanAt .inStringEsc ps cur key m).stepChar c
      = scanAt .inString ps (cur ++ [c]) key m := by
  rcases h with rfl | rfl | rfl | rfl | rfl | rfl | rfl | rfl <;> rfl

theorem step_esc_u (ps : List ParseState) (cur key : List Char)
    (m : List (List Char × JValue)) :
    (scanAt .inStringEsc ps cur key m).stepChar 'u'
      = scanAt (.inStringEscU 0) ps (cur ++ ['u']) key m := rfl

theorem run_hex4 (ps : List ParseState) (cur key : List Char)
    (m : List (List Char × JValue)) (a b c d : Char) (ha : isHex a = true)
    (hb : isHex b = true) (hc : isHex c = true) (hd : isHex d = true) :
    (scanAt (.inStringEscU 0) ps cur key m).run [a, b, c, d]
      = scanAt .inString ps (cur ++ [a, b, c, d]) key m := by
  simp [Scanner.run, Scanner.stepChar, scanAt, ha, hb, hc, hd]

theorem hex_small : ∀ j : Nat, j < 16 →
    isHex (hexDigit j) = true ∧ hexVal (hexDigit j) = some j := by
  decide

theorem hexDigit_mod (k : Nat) : hexDigit (k % 16) = hexDigit k := by
  simp [hexDigit]

theorem isHex_hexDigit (k : Nat) : isHex (hexDigit k) = true := by
  rw [← hexDigit_mod]; exact (hex_small _ (Nat.mod_lt _ (by decide))).1

theorem hexVal_hexDigit (k : Nat) : hexVal (hexDigit k) = some (k % 16) := by
  rw [← hexDigit_mod]; exact (hex_small _ (Nat.mod_lt _ (by decide))).2

theorem run_escapeChar (ps : List ParseState) (cur key : List Char)
    (m : List (List Char × JValue)) (c : Char) :
    (scanAt .inString ps cur key m).run (escapeChar c)
      = scanAt .inString ps (cur ++ escapeChar c) key m := by
  unfold escapeChar
  split_ifs with h1 h2 h3 h4 h5 h6 h7 h8 h9
  · simp only [run_cons, run_nil, step_backslash]
    rw [step_esc _ _ _ _ _ (by rcases h1 with rfl | rfl <;> simp)]
    simp
  · simp only [run_cons, run_nil, step_backslash]
    rw [step_esc _ _ _ _ _ (by simp)]; simp
  · simp only [run_cons, run_nil, step_backslash]
    rw [step_esc _ _ _ _ _ (by simp)]; simp
  · simp only [run_cons, run_nil, step_backslash]
    rw [step_esc _ _ _ _ _ (by simp)]; simp
  · simp only [run_cons, run_nil, step_backslash]
    rw [step_esc _ _ _ _ _ (by simp)]; simp
  · simp only [run_cons, run_nil, step_backslash]
    rw [step_esc _ _ _ _ _ (by simp)]; simp
  · rw [run_cons, step_backslash, run_cons, step_esc_u,
      run_hex4 _ _ _ _ '0' '0' _ _ (by decide) (by decide) (isHex_hexDigit _) (isHex_hexDigit _)]
    simp
  · rw [run_cons, step_backslash, run_cons, step_esc_u,
      run_hex4 _ _ _ _ '2' '0' '2' '8' (by decide) (by decide) (by decide) (by decide)]
    simp
  · rw [run_cons, step_backslash, run_cons, step_esc_u,
      run_hex4 _ _ _ _ '2' '0' '2' '9' (by decide) (by decide) (by decide) (by decide)]
    simp
  · have hp : plainChar c = true := by
      simp only [plainChar, Bool.and_eq_true, bne_iff_ne, ne_eq, decide_eq_true_eq]
      push_neg at h1 h7
      exact ⟨⟨h1.1, h1.2⟩, h7.1⟩
    simp only [run_cons, run_nil, step_plain _ _ _ _ _ hp]

theorem run_escape (ps : List ParseState) (cur key : List Char)
    (m : List (List Char × JValue)) (s : List Char) :
    (scanAt .inString ps cur key m).run (escape s)
      = scanAt .inString ps (cur ++ escape s) key m := by
  induction s generalizing cur with
  | nil => simp [escape, run_nil]
  | cons c cs ih =>
    rw [escape, run_append, run_escapeChar, ih, List.append_assoc]

theorem run_plain (ps : List ParseState) (cur key : List Char)
    (m : List (List Char × JValue)) (s : List Char) (h : ∀ c ∈ s, plainChar c = true) :
    (scanAt .inString ps cur key m).run s = scanAt .inString ps (cur ++ s) key m := by
  induction s generalizing cur with
  | nil => simp [run_nil]
  | cons c cs ih =>
    rw [run_cons, step_plain _ _ _ _ _ (h c (List.mem_cons_self _ _)),
      ih _ (fun x hx => h x (List.mem_cons_of_mem _ hx))]
    simp

/-! ### Integers -/

theorem digitsValue_append (a b : List Char) (v : Nat) :
    digitsValue (a ++ b) v = (digitsValue a v).bind (digitsValue b) := by
  induction a generalizing v with
  | nil => simp [digitsValue]
  | cons c cs ih =>
    simp only [List.cons_append, digitsValue]
    split
    · exact ih _
    · rfl

theorem digitChar_ne_zero (n : Nat) (h : n % 10 ≠ 0) : digitChar n ≠ '0' := by
  intro hc
  have := toNat_digitChar n
  rw [hc] at this
  exact h this.symm

theorem natDigitsAux_spec (fuel n : Nat) (acc : List Char) (h : n < fuel) :
    ∃ d ds, natDigitsAux fuel n acc = d :: ds ++ acc
      ∧ (∀ c ∈ d :: ds, isDigit c = true)
      ∧ (∀ v, digitsValue (d :: ds) v = some (v * 10 ^ (ds.length + 1) + n))
      ∧ (n ≠ 0 → d ≠ '0') ∧ (n = 0 → ds = []) ∧ d = digitChar (n / 10 ^ ds.length) := by
  induction fuel generalizing n acc with
  | zero => omega
  | succ fuel ih =>
    unfold natDigitsAux
    split
    · rename_i hz
      refine ⟨digitChar n, [], rfl, ?_, ?_, ?_, fun _ => rfl, by simp⟩
      · intro c hc
        simp only [List.mem_singleton] at hc
        subst hc; exact isDigit_digitChar n
      · intro v
        rw [digitsValue_cons_digitChar, digitsValue_nil]
        congr 1
        simp only [List.length_nil, zero_add, pow_one]
        omega
      · intro hn
        apply digitChar_ne_zero
        omega
    · rename_i hz
      obtain ⟨d, ds, h1, h2, h3, h4, _, h6⟩ := ih (n / 10) (digitChar n :: acc) (by omega)
      refine ⟨d, ds ++ [digitChar n], ?_, ?_, ?_, ?_, ?_, ?_⟩
      · rw [h1]; simp
      · intro c hc
        rw [← List.cons_append, List.mem_append] at hc
        rcases hc with hc | hc
        · exact h2 c hc
        · simp only [List.mem_singleton] at hc
          subst hc; exact isDigit_digitChar n
      · intro v
        rw [← List.cons_append, digitsValue_append, h3]
        simp only [Option.some_bind, digitsValue_cons_digitChar, digitsValue_nil]
        congr 1
        rw [List.length_append, List.length_singleton]
        have := Nat.div_add_mod n 10
        have hp : 10 ^ (ds.length + 1 + 1) = 10 ^ (ds.length + 1) * 10 := pow_succ _ _
        rw [hp]
        generalize 10 ^ (ds.length + 1) = p
        calc (v * p + n / 10) * 10 + n % 10 = v * (p * 10) + (10 * (n / 10) + n % 10) := by ring
          _ = v * (p * 10) + n := by rw [this]
      · intro _; exact h4 hz
      · intro hn; subst hn; simp at hz
      · rw [h6, List.length_append, List.length_singleton, pow_succ, Nat.div_div_eq_div_mul]
        congr 2
        ring

theorem natDigits_spec (n : Nat) :
    ∃ d ds, natDigits n = d :: ds
      ∧ (∀ c ∈ d :: ds, isDigit c = true)
      ∧ digitsValue (d :: ds) 0 = some n
      ∧ (n ≠ 0 → d ≠ '0') ∧ (n = 0 → ds = []) := by
  obtain ⟨d, ds, h1, h2, h3, h4, h5, _⟩ := natDigitsAux_spec (n + 1) n [] (by omega)
  refine ⟨d, ds, by simpa using h1, h2, ?_, h4, h5⟩
  rw [h3]; simp

theorem parseInt64_formatInt (n : Int) (h : isInt64 n) : parseInt64 (formatInt n) = some n := by
  obtain ⟨d, ds, h1, h2, h3, _, _⟩ := natDigits_spec n.natAbs
  have hd : isDigit d = true := h2 d (List.mem_cons_self _ _)
  have hm : d ≠ '-' := by rintro rfl; exact absurd hd (by decide)
  have hp : d ≠ '+' := by rintro rfl; exact absurd hd (by decide)
  unfold isInt64 at h
  unfold formatInt
  split
  · rename_i hneg
    simp only [parseInt64, h1, parseDigits, h3]
    have : n.natAbs ≤ 2 ^ 63 := by omega
    simp only [this, if_true]
    congr 1
    omega
  · rename_i hneg
    rw [h1]
    unfold parseInt64
    split
    · rename_i heq; injection heq with heq _; exact absurd heq hm
    · rename_i heq; injection heq with heq _; exact absurd heq hp
    · simp only [parseDigits, h3]
      have : n.natAbs < 2 ^ 63 := by omega
      simp only [this, if_true]
      congr 1
      omega

/-! ### The scanner on an integer literal -/

theorem step_beginValue_digit (ps : List ParseState) (cur key : List Char)
    (m : List (List Char × JValue)) (d : Char) (hd : isDigit d = true) :
    (scanAt .beginValue ps cur key m).stepChar d
      = scanAt (if d = '0' then .zero else .one) ps [d] key m := by
  have n1 : isSpace d = false := by
    cases h : isSpace d
    · rfl
    · simp only [isSpace, Bool.or_eq_true, decide_eq_true_eq] at h
      rcases h with ((rfl | rfl) | rfl) | rfl <;> exact absurd hd (by decide)
  have n2 : d ≠ '{' := by rintro rfl; exact absurd hd (by decide)
  have n3 : d ≠ '[' := by rintro rfl; exact absurd hd (by decide)
  have n4 : d ≠ '"' := by rintro rfl; exact absurd hd (by decide)
  have n5 : d ≠ '-' := by rintro rfl; exact absurd hd (by decide)
  have n6 : d ≠ 't' := by rintro rfl; exact absurd hd (by decide)
  have n7 : d ≠ 'f' := by rintro rfl; exact absurd hd (by decide)
  have n8 : d ≠ 'n' := by rintro rfl; exact absurd hd (by decide)
  by_cases h0 : d = '0'
  · subst h0; rfl
  · simp [Scanner.stepChar, scanAt, Scanner.beginValueChar, n1, n2, n3, n4, n5, n6, n7, n8, h0, hd]

theorem step_neg_digit (ps : List ParseState) (cur key : List Char)
    (m : List (List Char × JValue)) (d : Char) (hd : isDigit d = true) (h0 : d ≠ '0') :
    (scanAt .neg ps cur key m).stepChar d = scanAt .one ps (cur ++ [d]) key m := by
  simp [Scanner.stepChar, scanAt, h0, hd]

theorem run_digits_one (ps : List ParseState) (cur key : List Char)
    (m : List (List Char × JValue)) (ds : List Char) (h : ∀ c ∈ ds, isDigit c = true) :
    (scanAt .one ps cur key m).run ds = scanAt .one ps (cur ++ ds) key m := by
  induction ds generalizing cur with
  | nil => simp [run_nil]
  | cons c cs ih =>
    have hc := h c (List.mem_cons_self _ _)
    have : (scanAt .one ps cur key m).stepChar c = scanAt .one ps (cur ++ [c]) key m := by
      simp [Scanner.stepChar, scanAt, hc]
    rw [run_cons, this, ih _ (fun x hx => h x (List.mem_cons_of_mem _ hx))]
    simp

theorem step_one_comma (cur key : List Char) (m : List (List Char × JValue)) :
    (scanAt .one [.objectValue] cur key m).stepChar ','
      = scanAt .beginString [.objectKey] [] key (m ++ [(key, .num cur)]) := rfl

theorem step_zero_comma (cur key : List Char) (m : List (List Char × JValue)) :
    (scanAt .zero [.objectValue] cur key m).stepChar ','
      = scanAt .beginString [.objectKey] [] key (m ++ [(key, .num cur)]) := rfl

theorem step_beginValue_minus (ps : List ParseState) (cur key : List Char)
    (m : List (List Char × JValue)) :
    (scanAt .beginValue ps cur key m).stepChar '-' = scanAt .neg ps ['-'] key m := rfl

theorem run_int (key : List Char) (m : List (List Char × JValue)) (n : Int)
    (rest : List Char) :
    (scanAt .beginValue [.objectValue] [] key m).run (formatInt n ++ ',' :: rest)
      = (scanAt .beginString [.objectKey] [] key (m ++ [(key, .num (formatInt n))])).run rest := by
  obtain ⟨d, ds, h1, h2, _, h4, h5⟩ := natDigits_spec n.natAbs
  have hd : isDigit d = true := h2 d (List.mem_cons_self _ _)
  have hds : ∀ c ∈ ds, isDigit c = true := fun c hc => h2 c (List.mem_cons_of_mem _ hc)
  unfold formatInt
  split
  · rename_i hneg
    have hn0 : n.natAbs ≠ 0 := by omega
    rw [h1, List.cons_append, run_cons, step_beginValue_minus, List.cons_append, run_cons,
      step_neg_digit _ _ _ _ _ hd (h4 hn0), run_append, run_digits_one _ _ _ _ _ hds, run_cons,
      step_one_comma]
    simp
  · rw [h1, List.cons_append, run_cons, step_beginValue_digit _ _ _ _ _ hd]
    by_cases h0 : d = '0'
    · have hn0 : n.natAbs = 0 := by
        by_contra hne
        exact h4 hne h0
      rw [h5 hn0, if_pos h0, List.nil_append, run_cons, step_zero_comma]
    · rw [if_neg h0, run_append, run_digits_one _ _ _ _ _ hds, run_cons, step_one_comma]
      simp

/-! ### The scanner on an encoded credential -/

theorem init_eq : Scanner.init = scanAt .beginValue [] [] [] [] := rfl

theorem step_open (cur key : List Char) (m : List (List Char × JValue)) :
    (scanAt .beginValue [] cur key m).stepChar '{'
      = scanAt .beginStringOrEmpty [.objectKey] cur key m := rfl

theorem step_quote_first (ps : List ParseState) (cur key : List Char)
    (m : List (List Char × JValue)) :
    (scanAt .beginStringOrEmpty ps cur key m).stepChar '"' = scanAt .inString ps [] key m := rfl

theorem step_quote_key (ps : List ParseState) (cur key : List Char)
    (m : List (List Char × JValue)) :
    (scanAt .beginString ps cur key m).stepChar '"' = scanAt .inString ps [] key m := rfl

theorem step_quote_value (ps : List ParseState) (cur key : List Char)
    (m : List (List Char × JValue)) :
    (scanAt .beginValue ps cur key m).stepChar '"' = scanAt .inString ps [] key m := rfl

theorem step_close_key (cur key : List Char) (m : List (List Char × JValue)) :
    (scanAt .inString [.objectKey] cur key m).stepChar '"'
      = scanAt .endValue [.objectKey] [] cur m := rfl

theorem step_colon (cur key : List Char) (m : List (List Char × JValue)) :
    (scanAt .endValue [.objectKey] cur key m).stepChar ':'
      = scanAt .beginValue [.objectValue] cur key m := rfl

theorem step_close_value (cur key : List Char) (m : List (List Char × JValue)) :
    (scanAt .inString [.objectValue] cur key m).stepChar '"'
      = scanAt .endValue [.objectValue] [] key (m ++ [(key, .str cur)]) := rfl

theorem step_comma (cur key : List Char) (m : List (List Char × JValue)) :
    (scanAt .endValue [.objectValue] cur key m).stepChar ','
      = scanAt .beginString [.objectKey] cur key m := rfl

theorem run_key (s0 : Scanner) (key : List Char) (m : List (List Char × JValue))
    (k : String) (hk : ∀ c ∈ k.data, plainChar c = true) (rest : List Char)
    (h : s0.stepChar '"' = scanAt .inString [.objectKey] [] key m) :
    s0.run (encodeKey k ++ rest)
      = (scanAt .beginValue [.objectValue] [] k.data m).run rest := by
  unfold encodeKey
  simp only [List.cons_append, List.append_assoc, List.nil_append]
  rw [run_cons, h, run_append, run_plain _ _ _ _ _ hk, run_cons, List.nil_append,
    step_close_key, run_cons, step_colon]

theorem run_first_key (k : String) (hk : ∀ c ∈ k.data, plainChar c = true) (rest : List Char) :
    Scanner.init.run ('{' :: (encodeKey k ++ rest))
      = (scanAt .beginValue [.objectValue] [] k.data []).run rest := by
  rw [init_eq, run_cons, step_open]
  exact run_key _ _ _ k hk rest rfl

theorem run_next_key (key : List Char) (m : List (List Char × JValue)) (k : String)
    (hk : ∀ c ∈ k.data, plainChar c = true) (rest : List Char) :
    (scanAt .endValue [.objectValue] [] key m).run (',' :: (encodeKey k ++ rest))
      = (scanAt .beginValue [.objectValue] [] k.data m).run rest := by
  rw [run_cons, step_comma]
  exact run_key _ _ _ k hk rest rfl

theorem run_key_after_int (key : List Char) (m : List (List Char × JValue)) (k : String)
    (hk : ∀ c ∈ k.data, plainChar c = true) (rest : List Char) :
    (scanAt .beginString [.objectKey] [] key m).run (encodeKey k ++ rest)
      = (scanAt .beginValue [.objectValue] [] k.data m).run rest :=
  run_key _ _ _ k hk rest rfl

theorem run_string (key : List Char) (m : List (List Char × JValue)) (s : String)
    (rest : List Char) :
    (scanAt .beginValue [.objectValue] [] key m).run (encodeString s ++ rest)
      = (scanAt .endValue [.objectValue] [] key (m ++ [(key, .str (escape s.data))])).run rest := by
  unfold encodeString
  simp only [List.cons_append, List.append_assoc, List.nil_append]
  rw [run_cons, step_quote_value, run_append, run_escape, run_cons, List.nil_append,
    step_close_value]

theorem run_tail (key : List Char) (m : List (List Char × JValue)) (ts : List Char)
    (hts : ∀ c ∈ ts, plainChar c = true) :
    ((scanAt .beginValue [.objectValue] [] key m).run ('"' :: (ts ++ ['"', '}', '\n']))).stepChar ' '
      = { step := .endTop, parseState := [], cur := [], curLit := .null, key := key,
          members := m ++ [(key, .str ts)], top := some .object, junk := false } := by
  rw [run_cons, step_quote_value, run_append, run_plain _ _ _ _ _ hts, run_cons, List.nil_append,
    step_close_value]
  rfl

theorem readValue_encoded (a b r : String) (n : Int) (ts : List Char)
    (hts : ∀ c ∈ ts, plainChar c = true) :
    readValue ('{' :: encodeKey "access_token" ++ encodeString a
      ++ ',' :: encodeKey "token_type" ++ encodeString b
      ++ ',' :: encodeKey "refresh_token" ++ encodeString r
      ++ ',' :: encodeKey "expires_in" ++ formatInt n
      ++ ',' :: encodeKey "expiry" ++ '"' :: ts ++ ['"', '}', '\n'])
    = .value .object
        [("access_token".data, .str (escape a.data)), ("token_type".data, .str (escape b.data)),
         ("refresh_token".data, .str (escape r.data)), ("expires_in".data, .num (formatInt n)),
         ("expiry".data, .str ts)] := by
  have k1 : ∀ c ∈ "access_token".data, plainChar c = true := by decide
  have k2 : ∀ c ∈ "token_type".data, plainChar c = true := by decide
  have k3 : ∀ c ∈ "refresh_token".data, plainChar c = true := by decide
  have k4 : ∀ c ∈ "expires_in".data, plainChar c = true := by decide
  have k5 : ∀ c ∈ "expiry".data, plainChar c = true := by decide
  unfold readValue
  simp only [List.append_assoc, List.cons_append]
  rw [run_first_key _ k1, run_string, run_next_key _ _ _ k2, run_string,
    run_next_key _ _ _ k3, run_string, run_next_key _ _ _ k4, run_int,
    run_key_after_int _ _ _ k5, run_tail _ _ _ hts]
  rfl

/-! ### The RFC 3339 round trip -/

theorem civil_spec (t : Time) :
    (Time.civil t).toTime = t
    ∧ 1 ≤ (Time.civil t).month ∧ (Time.civil t).month ≤ 12
    ∧ 1 ≤ (Time.civil t).day ∧ (Time.civil t).day ≤ daysIn (Time.civil t).month (Time.civil t).year
    ∧ 0 ≤ (Time.civil t).hour ∧ (Time.civil t).hour ≤ 23
    ∧ 0 ≤ (Time.civil t).minute ∧ (Time.civil t).minute ≤ 59
    ∧ 0 ≤ (Time.civil t).second ∧ (Time.civil t).second ≤ 59
    ∧ 0 ≤ (Time.civil t).nsec ∧ (Time.civil t).nsec < 1000000000 := by
  obtain ⟨hy1, hy2, hy3⟩ := yearOfDay_spec (t / 1000000000 / 86400 + 719162)
  obtain ⟨hm1, hm2, hd1, hd2⟩ := dayOfMonth_spec _ _ hy2 hy3
  simp only [Time.civil, Civil.toTime]
  refine ⟨?_, hm1, hm2, hd1, hd2, ?_, ?_, ?_, ?_, ?_, ?_, ?_, ?_⟩
  · show @Eq Int _ _
    by_cases hc : isLeap (yearOfDay (t / 1000000000 / 86400 + 719162)).1 = true
        ∧ monthOfYday (isLeap (yearOfDay (t / 1000000000 / 86400 + 719162)).1)
            (yearOfDay (t / 1000000000 / 86400 + 719162)).2 > 2
    · rw [if_pos hc]; omega
    · rw [if_neg hc]; omega
  all_goals omega

theorem parseRFC3339_formatRFC3339 (t : Time) (ts : List Char)
    (h : formatRFC3339 t = some ts) : parseRFC3339 ts = some t := by
  obtain ⟨hT, hm1, hm2, hd1, hd2, hh1, hh2, hmi1, hmi2, hs1, hs2, hn1, hn2⟩ := civil_spec t
  unfold formatRFC3339 at h
  generalize Time.civil t = c at *
  obtain ⟨year, month, day, hour, minute, second, nsec⟩ := c
  simp only at hT hm1 hm2 hd1 hd2 hh1 hh2 hmi1 hmi2 hs1 hs2 hn1 hn2 h
  split at h
  · cases h
  · rename_i hy
    have hy0 : 0 ≤ year := by omega
    have hy1 : year < 10000 := by omega
    injection h with h
    subst h
    obtain ⟨hf1, hf2⟩ := frac_spec nsec hn1 hn2
    simp only [pad4, pad2, List.cons_append, List.nil_append, parseRFC3339,
      parseUint_four year 0 9999 hy0 hy1 hy0 (by omega),
      parseUint_two month 1 12 (by omega) (by omega) hm1 hm2,
      parseUint_two day 1 (daysIn month year) (by omega) (by unfold daysIn at hd2; split at hd2 <;> [split at hd2; split at hd2] <;> omega) hd1 hd2,
      parseUint_two hour 0 23 hh1 (by omega) hh1 hh2,
      parseUint_two minute 0 59 hmi1 (by omega) hmi1 hmi2,
      parseUint_two second 0 59 hs1 (by omega) hs1 hs2,
      and_self, if_true, hf1, hf2]
    simp [parseZone, hT]

theorem parseStrictRFC3339_formatRFC3339 (t : Time) (ts : List Char)
    (h : formatRFC3339 t = some ts) : parseStrictRFC3339 ts = some t := by
  simp only [parseStrictRFC3339, parseRFC3339_formatRFC3339 t ts h]

/-! ### String literals: unquoting what the encoder escaped -/

theorem unq_escapeChar (out : List Char) (c : Char) :
    (escapeChar c).foldl Unquoter.step (unqAt out) = unqAt (out ++ [c]) := by
  unfold escapeChar
  split_ifs with h1 h2 h3 h4 h5 h6 h7 h8 h9
  · rcases h1 with rfl | rfl <;> rfl
  · subst h2; rfl
  · subst h3; rfl
  · subst h4; rfl
  · subst h5; rfl
  · subst h6; rfl
  · have hn : c.toNat < 128 := by
      rcases h7 with h | rfl | rfl | rfl
      · omega
      all_goals decide
    have e1 : hexVal '0' = some 0 := by decide
    have e2 : c.toNat / 16 % 16 = c.toNat / 16 := by omega
    have e3 : (0 * 16 + 0) * 16 + c.toNat / 16 = c.toNat / 16 := by omega
    have e4 : c.toNat / 16 * 16 + c.toNat % 16 = c.toNat := by omega
    have e5 : ¬ (0xD800 ≤ c.toNat ∧ c.toNat < 0xE000) := by omega
    simp [List.foldl, Unquoter.step, unqAt, unescape1, e1, hexVal_hexDigit, e2, e4,
      Unquoter.rune, e5, Unquoter.emit, Unquoter.flush]
  · subst h8; rfl
  · subst h9; rfl
  · push_neg at h1 h7
    simp [List.foldl, Unquoter.step, unqAt, h1.1, h1.2, h7.1, Unquoter.emit, Unquoter.flush]

theorem unq_escape (out : List Char) (s : List Char) :
    (escape s).foldl Unquoter.step (unqAt out) = unqAt (out ++ s) := by
  induction s generalizing out with
  | nil => simp [escape]
  | cons c cs ih => rw [escape, List.foldl_append, unq_escapeChar, ih]; simp

theorem unquote_escape (s : List Char) : unquote (escape s) = some s := by
  have h := unq_escape [] s
  simp only [unqAt, List.nil_append] at h
  simp [unquote, h, Unquoter.flush]

/-! ### Decoding an encoded credential -/

theorem plain_small : ∀ j : Nat, j < 10 → plainChar (Char.ofNat (48 + j)) = true := by
  decide

theorem plainChar_digitChar (k : Nat) : plainChar (digitChar k) = true :=
  plain_small (k % 10) (Nat.mod_lt _ (by decide))

theorem mem_trimZeros (ds : List Char) (c : Char) (h : c ∈ trimZeros ds) : c ∈ ds := by
  unfold trimZeros at h
  rw [List.mem_reverse] at h
  exact List.mem_reverse.1 ((List.dropWhile_sublist _).subset h)

theorem plain_formatFrac (nsec : Int) : ∀ c ∈ formatFrac nsec, plainChar c = true := by
  intro c hc
  unfold formatFrac at hc
  split at hc
  · cases hc
  · rcases List.mem_cons.1 hc with rfl | hc
    · decide
    · have := mem_trimZeros _ _ hc
      simp only [List.mem_cons, List.mem_singleton, List.not_mem_nil, or_false] at this
      rcases this with rfl | rfl | rfl | rfl | rfl | rfl | rfl | rfl | rfl <;>
        exact plainChar_digitChar _

theorem plain_formatRFC3339 (t : Time) (ts : List Char) (h : formatRFC3339 t = some ts) :
    ∀ c ∈ ts, plainChar c = true := by
  unfold formatRFC3339 at h
  simp only at h
  split at h
  · cases h
  · injection h with h
    subst h
    intro c hc
    simp only [pad4, pad2, List.cons_append, List.nil_append, List.mem_cons, List.mem_append,
      List.mem_singleton, List.not_mem_nil, or_false] at hc
    rcases hc with rfl | rfl | rfl | rfl | rfl | rfl | rfl | rfl | rfl | rfl | rfl | rfl | rfl
      | rfl | rfl | rfl | rfl | rfl | rfl | hc | rfl
    all_goals first
      | exact plainChar_digitChar _
      | exact plain_formatFrac _ _ hc
      | decide

theorem jsonDecode_jsonEncode (c : Token) (text : List Char) (hint : isInt64 c.ExpiresIn)
    (h : jsonEncode c = some text) : jsonDecode text Token.zero = (c, none) := by
  unfold jsonEncode at h
  split at h
  · cases h
  · rename_i ts hts
    injection h with h
    subst h
    have k1 : (unquote "access_token".data).bind lookupField = some .accessToken := by decide
    have k2 : (unquote "token_type".data).bind lookupField = some .tokenType := by decide
    have k3 : (unquote "refresh_token".data).bind lookupField = some .refreshToken := by decide
    have k4 : (unquote "expires_in".data).bind lookupField = some .expiresIn := by decide
    have k5 : (unquote "expiry".data).bind lookupField = some .expiry := by decide
    rw [jsonDecode, readValue_encoded _ _ _ _ _ (plain_formatRFC3339 _ _ hts)]
    simp only [decodeMembers, k1, k2, k3, k4, k5, storeField, unquote_escape,
      parseInt64_formatInt _ hint, parseStrictRFC3339_formatRFC3339 _ _ hts, Token.zero]

/-! ### Worlds: what the operations leave unchanged -/

theorem loadToken_timeNow (w : World) : loadToken w.timeNow.2 = loadToken w := by
  unfold World.timeNow
  cases h : w.clock <;> simp [loadToken, getTokenPath]

theorem timeNow_fst (w : World) : w.timeNow.1 = w.now := rfl

theorem timeNow_log (w : World) : w.timeNow.2.log = w.log := by
  unfold World.timeNow; cases w.clock <;> rfl

theorem timeNow_tokenFile (w : World) : w.timeNow.2.tokenFile = w.tokenFile := by
  unfold World.timeNow; cases w.clock <;> rfl

theorem timeNow_tokenEndpoint (w : World) : w.timeNow.2.tokenEndpoint = w.tokenEndpoint := by
  unfold World.timeNow; cases w.clock <;> rfl

theorem saveToken_log (w : World) (t : Token) : w.log <+: (saveToken w t).log := by
  unfold saveToken
  split
  · exact List.prefix_append _ _
  · split
    · exact List.prefix_rfl
    · split <;> exact List.prefix_append _ _

theorem makeTokenRequest_log (w : World) (clientID clientSecret : String)
    (data : List (String × String)) :
    w.log ++ [.post TokenURL clientID clientSecret data]
      <+: (makeTokenRequest w clientID clientSecret data).2.log := by
  unfold makeTokenRequest
  split
  · exact List.prefix_rfl
  · exact List.prefix_rfl
  · split
    · exact List.prefix_rfl
    · refine List.IsPrefix.trans ?_ (saveToken_log _ _)
      rw [timeNow_log]
      exact List.prefix_rfl

theorem startWebLogin_log (w : World) (clientID clientSecret : String) :
    w.log <+: (startWebLogin w clientID clientSecret).2.log := by
  unfold startWebLogin
  split
  · simp only [World.emit, List.append_assoc]
    exact List.prefix_append _ _
  · simp only [exchangeCode]
    refine List.IsPrefix.trans ?_ (makeTokenRequest_log _ _ _ _)
    simp only [World.emit, List.append_assoc]
    exact List.prefix_append _ _

theorem loadToken_send (w : World) (e : Event) : loadToken (w.send e) = loadToken w := by
  simp [loadToken, getTokenPath, World.send]

theorem makeTokenRequest_ok (w : World) (clientID clientSecret : String)
    (data : List (String × String)) (status body : String) (rest : List HttpResult)
    (hresp : w.tokenEndpoint = .response 200 status body :: rest) :
    makeTokenRequest w clientID clientSecret data
      = (.ok (tokenFromReply body w.now (loadToken w).1),
         saveToken (w.send (.post TokenURL clientID clientSecret data)).timeNow.2
           (tokenFromReply body w.now (loadToken w).1)) := by
  have hl : loadToken (w.send (.post TokenURL clientID clientSecret data)).timeNow.2
      = loadToken w := by
    rw [loadToken_timeNow, loadToken_send]
  have ht : (w.send (.post TokenURL clientID clientSecret data)).timeNow.1 = w.now := rfl
  simp only [makeTokenRequest, hresp, List.head?_cons, ne_eq, not_true_eq_false, if_false,
    hl, ht, tokenFromReply, Time.Add, Second]
  cases h1 : (loadToken w).1 <;> by_cases h2 : (jsonDecode body.data Token.zero).1.RefreshToken = "" <;>
    simp [h1, h2]

theorem getTokenPath_send (w : World) (e : Event) : getTokenPath (w.send e) = getTokenPath w := rfl

theorem getTokenPath_timeNow (w : World) : getTokenPath w.timeNow.2 = getTokenPath w := by
  unfold World.timeNow; cases w.clock <;> rfl

theorem createErr_timeNow (w : World) : w.timeNow.2.createErr = w.createErr := by
  unfold World.timeNow; cases w.clock <;> rfl

theorem getTokenPath_of_loadToken (w : World) (old : Token) (err : Option String)
    (h : loadToken w = (some old, err)) : ∃ p, getTokenPath w = .ok p := by
  unfold loadToken at h
  split at h
  · cases h
  · exact ⟨_, by assumption⟩

theorem loadToken_saveToken (w : World) (c : Token) (text : List Char)
    (hpath : ∃ p, getTokenPath w = .ok p) (hcreate : w.createErr = none)
    (hint : isInt64 c.ExpiresIn) (henc : jsonEncode c = some text) :
    loadToken (saveToken w c) = (some c, none) := by
  obtain ⟨p, hp⟩ := hpath
  have hs : saveToken w c = { w.emit (.createFile p) with tokenFile := some (String.mk text) } := by
    simp [saveToken, hp, hcreate, henc]
  have hp2 : getTokenPath ({ w.emit (.createFile p) with tokenFile := some (String.mk text) } : World)
      = .ok p := hp
  rw [hs]
  simp only [loadToken, hp2, jsonDecode_jsonEncode c text hint henc]

/-! ### Decoded integers are 64-bit -/

theorem parseInt64_isInt64 (text : List Char) (n : Int) (h : parseInt64 text = some n) :
    isInt64 n := by
  unfold parseInt64 at h
  unfold isInt64
  split at h
  · split at h
    · split at h
      · injection h with h; omega
      · cases h
    · cases h
  · split at h
    · split at h
      · injection h with h; omega
      · cases h
    · cases h
  · split at h
    · split at h
      · injection h with h; omega
      · cases h
    · cases h

theorem storeField_isInt64 (t t1 : Token) (f : Field) (v : JValue)
    (ht : isInt64 t.ExpiresIn) (h : storeField t f v = .set t1) : isInt64 t1.ExpiresIn := by
  unfold storeField at h
  split at h
  all_goals first
    | (injection h with h; subst h; exact ht)
    | (split at h
       · injection h with h; subst h
         first | exact ht | (exact parseInt64_isInt64 _ _ (by assumption))
       · cases h)
    | cases h

theorem decodeMembers_isInt64 (ms : List (List Char × JValue)) (t : Token)
    (saved : Option String) (ht : isInt64 t.ExpiresIn) :
    isInt64 (decodeMembers ms t saved).1.ExpiresIn := by
  induction ms generalizing t saved with
  | nil => exact ht
  | cons kv rest ih =>
    obtain ⟨k, v⟩ := kv
    unfold decodeMembers
    split
    · exact ih _ _ ht
    · split
      · rename_i hst
        exact ih _ _ (storeField_isInt64 _ _ _ _ ht hst)
      · exact ih _ _ ht
      · exact ht

theorem jsonDecode_isInt64 (text : List Char) :
    isInt64 (jsonDecode text Token.zero).1.ExpiresIn := by
  have hz : isInt64 Token.zero.ExpiresIn := by decide
  unfold jsonDecode
  split
  all_goals first
    | exact hz
    | exact decodeMembers_isInt64 _ _ _ hz

/-! ## The claims -/

/-- C1: a stored credential that loads and has not expired (`now < Expiry`) is returned
as it is and without error; the log of effects, the credential file and the replies held by
the token endpoint are as before, so no request was sent, no login flow started and the
file not written. -/
theorem Authenticate_valid_returns_stored (w : World) (clientID clientSecret : String)
    (token : Token) (hload : loadToken w = (some token, none)) (hnow : w.now < token.Expiry) :
    (Authenticate w clientID clientSecret).1 = some (.ok token)
    ∧ (Authenticate w clientID clientSecret).2.log = w.log
    ∧ (Authenticate w clientID clientSecret).2.tokenFile = w.tokenFile
    ∧ (Authenticate w clientID clientSecret).2.tokenEndpoint = w.tokenEndpoint := by
  have h : Time.After w.timeNow.1 token.Expiry = false := by
    simp only [Time.After, timeNow_fst, decide_eq_false_iff_not, not_lt]
    exact le_of_lt hnow
  have hA : Authenticate w clientID clientSecret = (some (.ok token), w.timeNow.2) := by
    simp only [Authenticate, hload, h]
    simp
  rw [hA]
  exact ⟨rfl, timeNow_log w, timeNow_tokenFile w, timeNow_tokenEndpoint w⟩

/-- Witness of C1: the stored example credential, read one second before it expires. -/
theorem Authenticate_valid_returns_stored_witness :
    (Authenticate (exampleWorld (some exampleFile) 1793812259000000000 [] none) "id" "secret").1
      = some (.ok exampleToken)
    ∧ (Authenticate (exampleWorld (some exampleFile) 1793812259000000000 [] none) "id" "secret").2.log
      = [] :=
  let h := Authenticate_valid_returns_stored
    (exampleWorld (some exampleFile) 1793812259000000000 [] none) "id" "secret" exampleToken
    (by decide) (by decide)
  ⟨h.1, h.2.1⟩

/-- C2: when the token endpoint answers 200 with an empty or absent `refresh_token` and
the stored credential loads, `makeTokenRequest` returns a credential with the stored
refresh token and the access token of the reply, and hands that credential to `saveToken`;
when the file can be written and the credential encoded, loading the file afterwards
yields this credential. -/
theorem makeTokenRequest_inherits_refresh_token (w : World) (clientID clientSecret : String)
    (data : List (String × String)) (status body : String) (rest : List HttpResult)
    (old : Token) (hresp : w.tokenEndpoint = .response 200 status body :: rest)
    (hempty : (jsonDecode body.data Token.zero).1.RefreshToken = "")
    (hold : loadToken w = (some old, none)) :
    ∃ tok, (makeTokenRequest w clientID clientSecret data).1 = .ok tok
      ∧ tok.RefreshToken = old.RefreshToken
      ∧ tok.AccessToken = (jsonDecode body.data Token.zero).1.AccessToken
      ∧ (makeTokenRequest w clientID clientSecret data).2
          = saveToken (w.send (.post TokenURL clientID clientSecret data)).timeNow.2 tok
      ∧ (w.createErr = none → (jsonEncode tok).isSome →
          loadToken (makeTokenRequest w clientID clientSecret data).2 = (some tok, none)) := by
  refine ⟨tokenFromReply body w.now (loadToken w).1, ?_, ?_, ?_, ?_, ?_⟩
  · rw [makeTokenRequest_ok w clientID clientSecret data status body rest hresp]
  · simp [tokenFromReply, hempty, hold]
  · rfl
  · rw [makeTokenRequest_ok w clientID clientSecret data status body rest hresp]
  · intro hcreate henc
    rw [makeTokenRequest_ok w clientID clientSecret data status body rest hresp]
    obtain ⟨text, htext⟩ := Option.isSome_iff_exists.1 henc
    refine loadToken_saveToken _ _ text ?_ ?_ (jsonDecode_isInt64 _) htext
    · rw [getTokenPath_timeNow, getTokenPath_send]
      exact getTokenPath_of_loadToken w old none hold
    · rw [createErr_timeNow]; exact hcreate

/-- Witness of C2, the scenario of the spec: the stored credential with refresh token `R1`
expired a second ago and the endpoint answers with the access token `A2` and no refresh token. -/
theorem makeTokenRequest_inherits_refresh_token_witness :
    ∃ tok, (makeTokenRequest
        (exampleWorld (some exampleFile) 1793812261000000000 [refreshReply] none)
        "id" "secret" refreshForm).1 = .ok tok
      ∧ tok.RefreshToken = "R1" ∧ tok.AccessToken = "A2"
      ∧ loadToken (makeTokenRequest
          (exampleWorld (some exampleFile) 1793812261000000000 [refreshReply] none)
          "id" "secret" refreshForm).2 = (some tok, none) :=
  let ⟨tok, h1, h2, h3, _, h5⟩ := makeTokenRequest_inherits_refresh_token
    (exampleWorld (some exampleFile) 1793812261000000000 [refreshReply] none) "id" "secret"
    refreshForm "200 OK" "\x7b\"access_token\":\"A2\",\"expires_in\":3600\x7d" [] exampleToken rfl
    (by decide) (by decide)
  have h1' : tok = tokenFromReply "\x7b\"access_token\":\"A2\",\"expires_in\":3600\x7d"
      1793812261000000000 (some exampleToken) := by
    have := makeTokenRequest_ok
      (exampleWorld (some exampleFile) 1793812261000000000 [refreshReply] none) "id" "secret"
      refreshForm "200 OK" "\x7b\"access_token\":\"A2\",\"expires_in\":3600\x7d" [] rfl
    rw [this] at h1
    have hl : (loadToken (exampleWorld (some exampleFile) 1793812261000000000 [refreshReply] none)).1
        = some exampleToken := by decide
    rw [hl] at h1
    exact (Except.ok.inj h1).symm
  ⟨tok, h1, h2.trans (by decide), h3.trans (by decide), h5 rfl (by rw [h1']; decide)⟩

/-- Counterexample to C3 as stated: for `expires_in = 9223372047` reported at clock reading
`t = 1793812261000000000` the product `(ExpiresIn - 10) * time.Second` overflows 64 bits, and
the returned `Expiry` lies some 292 years before `t` instead of at `t + expires_in s - 10 s`. -/
theorem makeTokenRequest_expiry_overflow :
    (makeTokenRequest
        (exampleWorld (some exampleFile) 1793812261000000000 [overflowReply] none)
        "id" "secret" refreshForm).1
      = .ok { AccessToken := "A2", TokenType := "", RefreshToken := "R1",
              ExpiresIn := 9223372047, Expiry := -7429559775709551616 }
    ∧ (-7429559775709551616 : Int)
        ≠ 1793812261000000000 + 9223372047 * 1000000000 - 10 * 1000000000 := by
  decide

/-- C3, amended: after a reply with status 200 the credential `makeTokenRequest` returns, for
an exchange and for a refresh alike (whatever the form), carries the `expires_in` decoded
from the reply. For `-9223372026 ≤ expires_in ≤ 9223372046`, the values for which
`(ExpiresIn - 10) * time.Second` fits 64-bit nanoseconds, its `Expiry` is exactly
`t + expires_in s - 10 s`, with `t` the clock reading of the call. For every value the
offset added to `t` is `(ExpiresIn - 10) * 10^9` reduced modulo `2^64` into the signed
64-bit range. -/
theorem makeTokenRequest_expiry (w : World) (clientID clientSecret : String)
    (data : List (String × String)) (status body : String) (rest : List HttpResult)
    (hresp : w.tokenEndpoint = .response 200 status body :: rest) :
    ∃ tok, (makeTokenRequest w clientID clientSecret data).1 = .ok tok
      ∧ tok.ExpiresIn = (jsonDecode body.data Token.zero).1.ExpiresIn
      ∧ (-9223372026 ≤ tok.ExpiresIn → tok.ExpiresIn ≤ 9223372046 →
          tok.Expiry = w.now + tok.ExpiresIn * 1000000000 - 10 * 1000000000)
      ∧ tok.Expiry = w.now + (((tok.ExpiresIn - 10) * 1000000000 + 9223372036854775808)
          % 18446744073709551616 - 9223372036854775808) := by
  refine ⟨tokenFromReply body w.now (loadToken w).1, ?_, rfl, ?_, ?_⟩
  · rw [makeTokenRequest_ok w clientID clientSecret data status body rest hresp]
  · intro h1 h2
    have h1' : -9223372026 ≤ (jsonDecode body.data Token.zero).1.ExpiresIn := h1
    have h2' : (jsonDecode body.data Token.zero).1.ExpiresIn ≤ 9223372046 := h2
    clear h1 h2
    show @Eq Int
      (w.now + wrap64 (wrap64 ((jsonDecode body.data Token.zero).1.ExpiresIn - 10) * 1000000000))
      (w.now + (jsonDecode body.data Token.zero).1.ExpiresIn * 1000000000 - 10 * 1000000000)
    generalize (jsonDecode body.data Token.zero).1.ExpiresIn = e at h1' h2' ⊢
    generalize w.now = t
    unfold wrap64
    omega
  · show @Eq Int
      (w.now + wrap64 (wrap64 ((jsonDecode body.data Token.zero).1.ExpiresIn - 10) * 1000000000))
      (w.now + ((((jsonDecode body.data Token.zero).1.ExpiresIn - 10) * 1000000000
        + 9223372036854775808) % 18446744073709551616 - 9223372036854775808))
    generalize (jsonDecode body.data Token.zero).1.ExpiresIn = e
    generalize w.now = t
    unfold wrap64
    omega

/-- Witness of C3: the scenario of the spec, `expires_in` 3600 reported at clock reading `t`
giving `Expiry = t + 3590 s`, and the greatest value within the bounds, 9223372046, giving
`Expiry = t + 9223372036 s`. -/
theorem makeTokenRequest_expiry_witness :
    (∃ tok, (makeTokenRequest
        (exampleWorld (some exampleFile) 1793812261000000000 [refreshReply] none)
        "id" "secret" refreshForm).1 = .ok tok
      ∧ tok.ExpiresIn = 3600
      ∧ tok.Expiry = 1793812261000000000 + 3590 * 1000000000)
    ∧ (∃ tok, (makeTokenRequest
        (exampleWorld (some exampleFile) 1793812261000000000 [boundaryReply] none)
        "id" "secret" refreshForm).1 = .ok tok
      ∧ tok.ExpiresIn = 9223372046
      ∧ tok.Expiry = 1793812261000000000 + 9223372036 * 1000000000) :=
  ⟨let ⟨tok, h1, h2, h3, _⟩ := makeTokenRequest_expiry
      (exampleWorld (some exampleFile) 1793812261000000000 [refreshReply] none) "id" "secret"
      refreshForm "200 OK" "\x7b\"access_token\":\"A2\",\"expires_in\":3600\x7d" [] rfl
    have h2' : tok.ExpiresIn = 3600 := h2.trans (by decide)
    ⟨tok, h1, h2', by
      have := h3 (by rw [h2']; decide) (by rw [h2']; decide)
      rw [this, h2']
      rfl⟩,
   let ⟨tok, h1, h2, h3, _⟩ := makeTokenRequest_expiry
      (exampleWorld (some exampleFile) 1793812261000000000 [boundaryReply] none) "id" "secret"
      refreshForm "200 OK" "\x7b\"access_token\":\"A2\",\"expires_in\":9223372046\x7d" [] rfl
    have h2' : tok.ExpiresIn = 9223372046 := h2.trans (by decide)
    ⟨tok, h1, h2', by
      have := h3 (by rw [h2']; decide) (le_of_eq h2')
      rw [this, h2']
      rfl⟩⟩

/-- Counterexample to C4 as stated: a credential whose expiry lies in the year 10000 is
not encoded, the file is left empty, and loading it returns the error `EOF`. -/
theorem saveToken_loadToken_year_10000 :
    loadToken (saveToken (exampleWorld none 0 [] none) farToken)
      = (some Token.zero, some "EOF") := by
  decide

/-- C4, amended: for every credential whose `Expiry` lies in the years 0 to 9999 (what
`time.Time` can marshal as RFC 3339) and whose `ExpiresIn` is a 64-bit integer, saving it
and loading it, with the token path resolvable and the file creatable, returns no error and
that credential, equal in all five fields. -/
theorem saveToken_loadToken_roundtrip (w : World) (c : Token) (path : String)
    (hpath : getTokenPath w = .ok path) (hcreate : w.createErr = none)
    (hint : isInt64 c.ExpiresIn)
    (hyear : 0 ≤ (Time.civil c.Expiry).year ∧ (Time.civil c.Expiry).year ≤ 9999) :
    loadToken (saveToken w c) = (some c, none) := by
  have henc : (jsonEncode c).isSome := by
    have : ¬ ((Time.civil c.Expiry).year < 0 ∨ 9999 < (Time.civil c.Expiry).year) := by omega
    simp [jsonEncode, formatRFC3339, this]
  obtain ⟨text, htext⟩ := Option.isSome_iff_exists.1 henc
  exact loadToken_saveToken w c text ⟨path, hpath⟩ hcreate hint htext

/-- Witness of C4: the example credential in a world without a credential file. -/
theorem saveToken_loadToken_roundtrip_witness :
    loadToken (saveToken (exampleWorld none 0 [] none) exampleToken) = (some exampleToken, none) :=
  saveToken_loadToken_roundtrip (exampleWorld none 0 [] none) exampleToken
    "/home/u/.config/spotify-mini/token.json" (by decide) (by decide) (by decide) (by decide)

/-- C5: when loading the stored credential fails, `Authenticate` is the web login flow
run in the same world; when the credential loads, has expired and `refreshToken` fails,
`Authenticate` is the web login flow run in the world the failed refresh left behind (with
the notice printed). In both cases result and final world are those of `startWebLogin`,
so the error of loading or refreshing is not what is returned. -/
theorem Authenticate_falls_back_to_login (w : World) (clientID clientSecret : String) :
    ((loadToken w).2 ≠ none →
      Authenticate w clientID clientSecret = startWebLogin w clientID clientSecret)
    ∧ (∀ token err w2, loadToken w = (some token, none) → token.Expiry < w.now →
        refreshToken w.timeNow.2 clientID clientSecret token.RefreshToken = (.error err, w2) →
        Authenticate w clientID clientSecret
          = startWebLogin (w2.emit (.print "Refresh failed, restarting login flow...\n"))
              clientID clientSecret) := by
  constructor
  · intro hfail
    unfold Authenticate
    split
    · rename_i heq
      rw [heq] at hfail
      exact absurd rfl hfail
    · rfl
  · intro token err w2 hload hnow href
    have h : Time.After w.timeNow.1 token.Expiry = true := by
      simpa [Time.After, timeNow_fst] using hnow
    simp only [Authenticate, hload, h, if_true, href]

/-- Witness of C5: no credential file; and a credential expired one second ago whose
refresh is answered `400 Bad Request`, after which the login flow obtains the credential
`A3` with the code `C1`. -/
theorem Authenticate_falls_back_to_login_witness :
    Authenticate (exampleWorld none 1793812261000000000 [] (some "C1")) "id" "secret"
      = startWebLogin (exampleWorld none 1793812261000000000 [] (some "C1")) "id" "secret"
    ∧ Authenticate
        (exampleWorld (some exampleFile) 1793812261000000000
          [.response 400 "400 Bad Request" "",
           .response 200 "200 OK" "\x7b\"access_token\":\"A3\",\"refresh_token\":\"R3\",\"expires_in\":3600\x7d"]
          (some "C1")) "id" "secret"
      = startWebLogin
          (World.emit (refreshToken
            (World.timeNow (exampleWorld (some exampleFile) 1793812261000000000
              [.response 400 "400 Bad Request" "",
               .response 200 "200 OK" "\x7b\"access_token\":\"A3\",\"refresh_token\":\"R3\",\"expires_in\":3600\x7d"]
              (some "C1"))).2 "id" "secret" "R1").2
            (.print "Refresh failed, restarting login flow...\n"))
          "id" "secret" :=
  ⟨(Authenticate_falls_back_to_login _ "id" "secret").1 (by decide),
   (Authenticate_falls_back_to_login _ "id" "secret").2 exampleToken
      "API Error: 400 Bad Request" _ (by decide) (by decide) (Prod.ext (by decide) rfl)⟩

/-- Counterexample to C6 as stated: at `now = Expiry` the stored credential is returned and
no refresh request is sent, although a reply of the token endpoint was waiting. -/
theorem Authenticate_at_expiry_not_refreshed :
    loadToken (exampleWorld (some exampleFile) 1793812260000000000 [refreshReply] none)
      = (some exampleToken, none)
    ∧ exampleToken.Expiry
        ≤ (exampleWorld (some exampleFile) 1793812260000000000 [refreshReply] none).now
    ∧ (Authenticate (exampleWorld (some exampleFile) 1793812260000000000 [refreshReply] none)
        "id" "secret").1 = some (.ok exampleToken)
    ∧ (Authenticate (exampleWorld (some exampleFile) 1793812260000000000 [refreshReply] none)
        "id" "secret").2.log = []
    ∧ (Authenticate (exampleWorld (some exampleFile) 1793812260000000000 [refreshReply] none)
        "id" "secret").2.tokenEndpoint = [refreshReply] := by
  decide

/-- C6, amended: a stored credential that loads is treated as expired when `now` is
strictly later than `Expiry`. The first effect of `Authenticate` is then the POST of a
`refresh_token` grant carrying the stored refresh token, and what `Authenticate` returns is
decided by that exchange and not by the stored credential: when `refreshToken` succeeds,
its credential and its world; when it fails, the web login flow in the world it left. At
`now = Expiry` the stored credential is returned and nothing is sent. -/
theorem Authenticate_refreshes_when_expired (w : World) (clientID clientSecret : String)
    (token : Token) (hload : loadToken w = (some token, none)) :
    (token.Expiry < w.now →
      w.log ++ [.post TokenURL clientID clientSecret
            [("grant_type", "refresh_token"), ("refresh_token", token.RefreshToken)]]
        <+: (Authenticate w clientID clientSecret).2.log
      ∧ (∀ newToken w2,
          refreshToken w.timeNow.2 clientID clientSecret token.RefreshToken = (.ok newToken, w2) →
          Authenticate w clientID clientSecret = (some (.ok newToken), w2))
      ∧ (∀ err w2,
          refreshToken w.timeNow.2 clientID clientSecret token.RefreshToken = (.error err, w2) →
          Authenticate w clientID clientSecret
            = startWebLogin (w2.emit (.print "Refresh failed, restarting login flow...\n"))
                clientID clientSecret))
    ∧ (w.now = token.Expiry →
        (Authenticate w clientID clientSecret).1 = some (.ok token)
        ∧ (Authenticate w clientID clientSecret).2.log = w.log) := by
  constructor
  · intro hnow
    have h : Time.After w.timeNow.1 token.Expiry = true := by
      simpa [Time.After, timeNow_fst] using hnow
    refine ⟨?_, ?_, ?_⟩
    · have hm := makeTokenRequest_log w.timeNow.2 clientID clientSecret
        [("grant_type", "refresh_token"), ("refresh_token", token.RefreshToken)]
      simp only [Authenticate, hload, h, if_true, refreshToken]
      rw [timeNow_log] at hm
      split
      · rename_i heq
        rw [heq] at hm
        exact hm
      · rename_i heq
        rw [heq] at hm
        refine List.IsPrefix.trans hm (List.IsPrefix.trans ?_ (startWebLogin_log _ _ _))
        exact List.prefix_append _ _
    · intro newToken w2 href
      simp only [Authenticate, hload, h, if_true, href]
    · intro err w2 href
      simp only [Authenticate, hload, h, if_true, href]
  · intro hnow
    have h : Time.After w.timeNow.1 token.Expiry = false := by
      simp [Time.After, timeNow_fst, hnow]
    simp [Authenticate, hload, h, timeNow_log]

/-- Witness of C6, the scenario of the spec: the stored credential with access token `A1`
expired a second ago; the refresh request is sent and `Authenticate` returns the refreshed
credential with access token `A2`, not the stored one. -/
theorem Authenticate_refreshes_when_expired_witness :
    [Event.post TokenURL "id" "secret" refreshForm]
      <+: (Authenticate (exampleWorld (some exampleFile) 1793812261000000000 [refreshReply] none)
            "id" "secret").2.log
    ∧ (Authenticate (exampleWorld (some exampleFile) 1793812261000000000 [refreshReply] none)
        "id" "secret").1
      = some (.ok { AccessToken := "A2", TokenType := "", RefreshToken := "R1", ExpiresIn := 3600,
                    Expiry := 1793815851000000000 }) :=
  let h := (Authenticate_refreshes_when_expired
    (exampleWorld (some exampleFile) 1793812261000000000 [refreshReply] none) "id" "secret"
    exampleToken (by decide)).1 (by decide)
  ⟨h.1, by
    rw [h.2.1 { AccessToken := "A2", TokenType := "", RefreshToken := "R1", ExpiresIn := 3600,
                Expiry := 1793815851000000000 } _ (Prod.ext (by decide) rfl)]⟩

/-- C7, the code at the failing input: the body `not json` of a 200 reply does not decode,
yet `makeTokenRequest` returns a credential and no error (an empty access token, the
inherited refresh token, an expiry ten seconds in the past) and overwrites the credential file
with it. -/
theorem makeTokenRequest_malformed_body_accepted :
    (jsonDecode "not json".data Token.zero).2 = some "invalid character in JSON input"
    ∧ (makeTokenRequest
        (exampleWorld (some exampleFile) 1793812261000000000
          [.response 200 "200 OK" "not json"] none)
        "id" "secret" refreshForm).1
      = .ok { AccessToken := "", TokenType := "", RefreshToken := "R1", ExpiresIn := 0,
              Expiry := 1793812251000000000 }
    ∧ (makeTokenRequest
        (exampleWorld (some exampleFile) 1793812261000000000
          [.response 200 "200 OK" "not json"] none)
        "id" "secret" refreshForm).2.tokenFile
      = some "\x7b\"access_token\":\"\",\"token_type\":\"\",\"refresh_token\":\"R1\",\"expires_in\":0,\"expiry\":\"2026-11-04T17:10:51Z\"\x7d\n" := by
  decide

/-- C8: a reply of the token endpoint with a status code other than 200 makes
`makeTokenRequest` return no credential and the error `API Error: ` followed by the
reply's status; the credential file is untouched and the only effect is the request. -/
theorem makeTokenRequest_non200 (w : World) (clientID clientSecret : String)
    (data : List (String × String)) (statusCode : Int) (status body : String)
    (rest : List HttpResult)
    (hresp : w.tokenEndpoint = .response statusCode status body :: rest)
    (hcode : statusCode ≠ 200) :
    (makeTokenRequest w clientID clientSecret data).1 = .error ("API Error: " ++ status)
    ∧ (makeTokenRequest w clientID clientSecret data).2.tokenFile = w.tokenFile
    ∧ (makeTokenRequest w clientID clientSecret data).2.log
        = w.log ++ [.post TokenURL clientID clientSecret data] := by
  simp [makeTokenRequest, hresp, hcode, World.send]

/-- Witness of C8: a reply `400 Bad Request` to a refresh request. -/
theorem makeTokenRequest_non200_witness :
    (makeTokenRequest
      (exampleWorld (some exampleFile) 1793812261000000000
        [.response 400 "400 Bad Request" "\x7b\"error\":\"invalid_grant\"\x7d"] none)
      "id" "secret" refreshForm).1 = .error "API Error: 400 Bad Request"
    ∧ (makeTokenRequest
      (exampleWorld (some exampleFile) 1793812261000000000
        [.response 400 "400 Bad Request" "\x7b\"error\":\"invalid_grant\"\x7d"] none)
      "id" "secret" refreshForm).2.tokenFile = some exampleFile :=
  let h := makeTokenRequest_non200
    (exampleWorld (some exampleFile) 1793812261000000000
      [.response 400 "400 Bad Request" "\x7b\"error\":\"invalid_grant\"\x7d"] none)
    "id" "secret" refreshForm 400 "400 Bad Request" "\x7b\"error\":\"invalid_grant\"\x7d" [] rfl
    (by decide)
  ⟨h.1, h.2.1⟩

/-- Counterexample to C9 as stated: with nothing playing the status string is not the
text without white space that the claim quotes. -/
theorem getStatusJSON_stopped_not_compact :
    GetCurrentPlaying (exampleWorld none 0 [] none) exampleToken = (none, none)
    ∧ getStatusJSON (exampleWorld none 0 [] none) exampleToken ≠ .ok compactStopped := by
  decide

/-- C9, amended: when `GetCurrentPlaying` yields a nil state and no error, `getStatusJSON`
returns the text with one space after each colon and comma, `writeStatusToFile` publishes
that text when it can create its temporary file, and the text is a well-formed JSON
document with the same members as the text the claim quotes. -/
theorem getStatusJSON_nothing_playing (w : World) (token : Token)
    (h : GetCurrentPlaying w token = (none, none)) :
    getStatusJSON w token
      = .ok "\x7b\"text\": \"\", \"class\": \"spotify\", \"alt\": \"stopped\"\x7d"
    ∧ (w.statusCreateErr = none →
        (writeStatusToFile w token).map (·.statusFile)
          = .ok (some "\x7b\"text\": \"\", \"class\": \"spotify\", \"alt\": \"stopped\"\x7d"))
    ∧ validJSON "\x7b\"text\": \"\", \"class\": \"spotify\", \"alt\": \"stopped\"\x7d".data = true
    ∧ readValue "\x7b\"text\": \"\", \"class\": \"spotify\", \"alt\": \"stopped\"\x7d".data
        = readValue compactStopped.data := by
  have hs : getStatusJSON w token = .ok stoppedStatus := by
    simp only [getStatusJSON, h]
  refine ⟨hs, ?_, by decide, by decide⟩
  intro hc
  simp only [writeStatusToFile, hs, hc]
  rfl

/-- Witness of C9: the player endpoint answers 204. -/
theorem getStatusJSON_nothing_playing_witness :
    getStatusJSON (exampleWorld none 0 [] none) exampleToken
      = .ok "\x7b\"text\": \"\", \"class\": \"spotify\", \"alt\": \"stopped\"\x7d" :=
  (getStatusJSON_nothing_playing (exampleWorld none 0 [] none) exampleToken (by decide)).1

/-- C10, the code at the failing inputs: for a track without artists `getStatusJSON`
panics, and for a track whose title contains a double quote the text it returns is not
well-formed JSON. -/
theorem getStatusJSON_panics_or_malformed :
    getStatusJSON { exampleWorld none 0 [] none with player := playing "Song" [] true }
        exampleToken
      = .error "runtime error: index out of range [0] with length 0"
    ∧ (∃ s, getStatusJSON
          { exampleWorld none 0 [] none with
            player := playing "Say \"Hi\"" [{ Name := "Band" }] true } exampleToken = .ok s
        ∧ validJSON s.data = false) := by
  refine ⟨by decide, _, rfl, by decide⟩

end SpotifyMini
